import Mathlib

/-!
Verification of the account-provisioning and resilient-fetch layer of the
temporary-email client (src/services/mailService.ts).

The TypeScript code is shallowly embedded as Lean functions in a monad `M`
over an oracle environment `Env`:
  * `Env.net n req` is the outcome of the n-th effectful call when it is a
    `fetch` of `req` (`none` models a rejected fetch / network error);
  * `Env.time n` is the value of `Date.now()` at the n-th effectful call;
  * `Env.rand n` feeds `Math.floor(Math.random() * k)`: the drawn index is
    `Env.rand n % k`, which ranges over exactly the values the JS
    expression can produce.
A single counter numbers all effectful calls in program order, and each run
also yields a trace of externally visible events (`fetch` and `setTimeout`
sleeps), so that theorems can speak about how many requests were issued and
to which URL.  JSON values are modelled by the inductive `Json`; JavaScript
truthiness and string coercion are modelled by `Json.truthy` / `Json.jsStr`.
-/
/-- JSON values, as delivered by `res.json()`. -/
inductive Json where
  | null
  | str (s : String)
  | num (n : Int)
  | bool (b : Bool)
  | arr (elems : List Json)
  | obj (fields : List (String × Json))

/-- Lookup of a field in a JSON object literal (first binding wins, as in
evaluated JS object state). -/
def lookupField : List (String × Json) → String → Option Json
  | [], _ => none
  | (k, v) :: rest, key => if k = key then some v else lookupField rest key

/-- JS property access `data.key` / `data[key]` on a receiver already
known not to be `null`: `none` models `undefined` (a primitive receiver is
boxed, so the access yields `undefined` rather than throwing).  Where the
receiver may be `null` — on which JS throws a `TypeError` — the embedding
uses the fallible `Json.getFieldE` below instead. -/
def Json.getField : Json → String → Option Json
  | .obj fields, key => lookupField fields key
  | _, _ => none

/-- JS truthiness of a value. -/
def Json.truthy : Json → Bool
  | .null => false
  | .str s => !(s == "")
  | .num n => !(n == 0)
  | .bool b => b
  | .arr _ => true
  | .obj _ => true

/-- JS truthiness, with `none` standing for `undefined`. -/
def optTruthy : Option Json → Bool
  | none => false
  | some j => j.truthy

mutual

/-- JS string coercion `String(v)` (floating-point formatting aside; the
program only ever coerces strings in the claims below). -/
def Json.jsStr : Json → String
  | .null => "null"
  | .str s => s
  | .num n => toString n
  | .bool true => "true"
  | .bool false => "false"
  | .arr elems => jsStrList elems
  | .obj _ => "[object Object]"

/-- `Array.prototype.toString`: elements joined by commas, with `null`
rendered empty. -/
def jsStrList : List Json → String
  | [] => ""
  | [j] => jsStrElem j
  | j :: rest => jsStrElem j ++ "," ++ jsStrList rest

/-- One element of an array under `join`/`toString`: `null` becomes the
empty string, anything else is coerced. -/
def jsStrElem : Json → String
  | .null => ""
  | j => Json.jsStr j

end

/-- JS string coercion with `none` standing for `undefined`. -/
def jsToString : Option Json → String
  | none => "undefined"
  | some j => j.jsStr

/-- An HTTP response as seen through the `fetch` API: `jsonBody = none`
models a body on which `res.json()` rejects; `textBody` is what
`res.text()` resolves to. -/
structure Response where
  status : Nat
  jsonBody : Option Json
  textBody : String

/-- `res.ok`: status in the inclusive-exclusive range [200, 300). -/
def Response.ok (r : Response) : Bool :=
  decide (200 ≤ r.status) && decide (r.status < 300)

/-- The `RequestInit` options relevant to this program: method, headers and
a JSON body (the source always passes `JSON.stringify` of an object). -/
structure ReqOptions where
  method : String
  headers : List (String × String)
  body : Option Json

/-- `fetch`'s default options (method GET, no headers, no body),
corresponding to the `options = {}` default of `smartFetch`. -/
def defaultOpts : ReqOptions := { method := "GET", headers := [], body := none }

/-- A request: target URL plus options. -/
structure Request where
  url : String
  opts : ReqOptions

/-- Externally visible events of a run: a physical `fetch` (with its
outcome; `none` = the promise rejected) or a `setTimeout` sleep. -/
inductive Event where
  | fetch (req : Request) (outcome : Option Response)
  | sleep (ms : Nat)

/-- Thrown JS values that arise in this program. -/
inductive Err where
  | error (msg : String)
  | network
  | typeError
  | jsonParse

/-- The oracle environment: outcome of each fetch, each `Date.now()`
reading, and each `Math.random()` draw, indexed by the global effect
counter. -/
structure Env where
  net : Nat → Request → Option Response
  time : Nat → Nat
  rand : Nat → Nat

/-- The effect monad of the embedding: given the environment and the
current effect counter, a computation either returns a value or throws,
yielding the new counter and the trace of events it emitted. -/
def M (α : Type) : Type := Env → Nat → Except Err α × Nat × List Event

/-- Monadic bind: sequence two computations, concatenating their traces;
a throw in the first skips the second. -/
def M.bind {α β : Type} (m : M α) (k : α → M β) : M β := fun env n =>
  match m env n with
  | (Except.ok a, n₁, tr₁) =>
    match k a env n₁ with
    | (r, n₂, tr₂) => (r, n₂, tr₁ ++ tr₂)
  | (Except.error e, n₁, tr₁) => (Except.error e, n₁, tr₁)

instance : Monad M where
  pure a := fun _ n => (Except.ok a, n, [])
  bind := M.bind

/-- JS `throw`. -/
def M.throw {α : Type} (e : Err) : M α := fun _ n => (Except.error e, n, [])

/-- JS `try { body } catch (e) { handler }`. -/
def M.tryCatch {α : Type} (body : M α) (handler : Err → M α) : M α := fun env n =>
  match body env n with
  | (Except.ok a, n₁, tr₁) => (Except.ok a, n₁, tr₁)
  | (Except.error e, n₁, tr₁) =>
    match handler e env n₁ with
    | (r, n₂, tr₂) => (r, n₂, tr₁ ++ tr₂)

/-- A physical `fetch` call: draws its outcome from the environment and
records the event. -/
def M.doFetch (url : String) (opts : ReqOptions) : M Response := fun env n =>
  match env.net n ⟨url, opts⟩ with
  | some resp => (Except.ok resp, n + 1, [Event.fetch ⟨url, opts⟩ (some resp)])
  | none => (Except.error Err.network, n + 1, [Event.fetch ⟨url, opts⟩ none])

/-- `Date.now()` (also `new Date()`): reads the clock oracle. -/
def M.dateNow : M Nat := fun env n => (Except.ok (env.time n), n + 1, [])

/-- `Math.floor(Math.random() * k)`: an oracle draw reduced modulo `k`,
covering exactly the values 0 .. k-1 the JS expression produces. -/
def M.randFloor (k : Nat) : M Nat := fun env n => (Except.ok (env.rand n % k), n + 1, [])

/-- `await new Promise(r => setTimeout(r, ms))`. -/
def M.sleep (ms : Nat) : M Unit := fun _ n => (Except.ok (), n + 1, [Event.sleep ms])

/-- `res.json()`: yields the parsed body or rejects. -/
def Response.jsonM (r : Response) : M Json := fun _ n =>
  match r.jsonBody with
  | some j => (Except.ok j, n, [])
  | none => (Except.error Err.jsonParse, n, [])

/-- `res.text()`: always resolves with the raw body text. -/
def Response.textM (r : Response) : M String := fun _ n => (Except.ok r.textBody, n, [])

/-- JS property access `v.key` where `v` may be `null`: access on `null`
throws a `TypeError` (as `null.key` does in JS); on any other value the
result is that of `Json.getField`. -/
def Json.getFieldE : Json → String → Except Err (Option Json)
  | Json.null, _ => Except.error Err.typeError
  | data, key => Except.ok (Json.getField data key)

/-- Run a pure fallible computation inside `M`: no effect-counter advance
and no events, only the value or the thrown error. -/
def M.lift {α : Type} (r : Except Err α) : M α := fun _ n => (r, n, [])

/-! ## URL constants and `encodeURIComponent` -/
def API_BASE : String := "https://api.mail.tm"

def PROXY_BASE : String := "https://corsproxy.io/?"

def accountsUrl : String := API_BASE ++ "/accounts"

def tokenUrl : String := API_BASE ++ "/token"

def meUrl : String := API_BASE ++ "/me"

/-- Hex digit (uppercase), as produced by `encodeURIComponent`. -/
def hexDigit (n : Nat) : Char :=
  if n < 10 then Char.ofNat (48 + n) else Char.ofNat (55 + n)

/-- One percent-encoded byte, `%XY`. -/
def percentEncodeByte (b : Nat) : String :=
  String.mk [Char.ofNat 37, hexDigit (b / 16), hexDigit (b % 16)]

/-- The UTF-8 bytes of a character (what `encodeURIComponent` encodes). -/
def utf8Bytes (c : Char) : List Nat :=
  let n := c.toNat
  if n < 128 then [n]
  else if n < 2048 then [192 + n / 64, 128 + n % 64]
  else if n < 65536 then [224 + n / 4096, 128 + (n / 64) % 64, 128 + n % 64]
  else [240 + n / 262144, 128 + (n / 4096) % 64, 128 + (n / 64) % 64, 128 + n % 64]

/-- The punctuation marks `encodeURIComponent` leaves unescaped:
`- _ . ! ~ * ' ( )` (the apostrophe, code 39, is appended by code point). -/
def uriMarks : List Char := "-_.!~*()".data ++ [Char.ofNat 39]

/-- Characters `encodeURIComponent` leaves unescaped: ASCII alphanumerics
and the marks above. -/
def isUriUnescaped (c : Char) : Bool :=
  c.isAlphanum || uriMarks.contains c

/-- JS `encodeURIComponent`. -/
def encodeURIComponent (s : String) : String :=
  String.join (s.data.map fun c =>
    if isUriUnescaped c then String.singleton c
    else String.join ((utf8Bytes c).map percentEncodeByte))

/-- The URL of the proxied request built by `smartFetch` for original URL
`url` at `Date.now() = t`. -/
def proxyUrlOf (url : String) (t : Nat) : String :=
  PROXY_BASE ++ encodeURIComponent url ++ "&_cb=" ++ toString t

/-! ## The service functions (embedding of src/services/mailService.ts) -/
/-- `smartFetch` (mailService.ts lines 19-33): try the direct request; a
thrown fetch or a 403/429 status falls back to exactly one proxied request
with the original URL percent-encoded and a `_cb` cache-busting timestamp,
reusing the same options; the proxied response (or its rejection) is
returned as-is. -/
def smartFetch (url : String) (options : ReqOptions := defaultOpts) : M Response :=
  M.tryCatch
    (M.bind (M.doFetch url options) fun res =>
      if res.status = 403 ∨ res.status = 429 then M.throw (Err.error "Blocked")
      else pure res)
    (fun _ =>
      M.bind M.dateNow fun t =>
        M.doFetch (PROXY_BASE ++ encodeURIComponent url ++ "&_cb=" ++ toString t) options)

/-- `(data['hydra:member'] || []) as Domain[]` followed by `.filter`:
`data['hydra:member']` on a `null` parsed body throws a `TypeError`; a
falsy or absent member field yields `[]`; a truthy non-array makes the
subsequent `.filter` throw a `TypeError`. -/
def memberOrEmpty (data : Json) : M (List Json) :=
  M.bind (M.lift (Json.getFieldE data "hydra:member")) fun mv =>
  match mv with
  | some (Json.arr elems) => pure elems
  | some j => if j.truthy then M.throw Err.typeError else pure []
  | none => pure []

/-- The strict filter `domains.filter(d => d.isActive)`, with the JS
callback semantics: elements are visited left to right, and `d.isActive`
on a `null` element throws a `TypeError` that aborts the whole filter; on
any other element the access yields a value (or `undefined`) whose
truthiness decides membership. -/
def filterActive : List Json → Except Err (List Json)
  | [] => Except.ok []
  | d :: rest =>
    match Json.getFieldE d "isActive" with
    | Except.error e => Except.error e
    | Except.ok v =>
      match filterActive rest with
      | Except.error e => Except.error e
      | Except.ok tail => Except.ok (if optTruthy v then d :: tail else tail)

/-- The Strategy A URL of line 42 at `Date.now() = t`. -/
def stratAUrl (t : Nat) : String :=
  API_BASE ++ "/domains?page=1&itemsPerPage=100&_t=" ++ toString t

/-- The Strategy B URL of line 55 at `Date.now() = t`. -/
def stratBUrl (t : Nat) : String :=
  API_BASE ++ "/domains?_t=" ++ toString t

/-- Lines 45-49 and 57-61: parse an ok response and filter the member list
to active domains. -/
def strategyParse (res : Response) : M (List Json) :=
  M.bind res.jsonM fun data =>
    M.bind (memberOrEmpty data) fun domains =>
      M.lift (filterActive domains)

/-- The body of the `try` of `getAvailableDomains`: Strategy A (paginated
query); if it responds ok and its active filter is non-empty that list is
returned at once, otherwise Strategy B (the default query) is tried. -/
def gadBody : M (List Json) :=
  M.bind M.dateNow fun t1 =>
  M.bind (smartFetch (stratAUrl t1) defaultOpts) fun res =>
  M.bind (if res.ok then strategyParse res else pure []) fun firstActive =>
  if firstActive.length > 0 then pure firstActive
  else
    M.bind M.dateNow fun t2 =>
    M.bind (smartFetch (stratBUrl t2) defaultOpts) fun res2 =>
    if res2.ok then strategyParse res2 else pure []

/-- `getAvailableDomains` (mailService.ts lines 39-71): the two-strategy
body above, with every exception converted to `[]`. -/
def getAvailableDomains : M (List Json) :=
  M.tryCatch gadBody (fun _ => pure [])

/-- The random-name alphabet of `randomString`. -/
def chars : String := "abcdefghijklmnopqrstuvwxyz0123456789"

/-- The loop body of `randomString`: append `length` random characters. -/
def randomStringAux (acc : String) : Nat → M String
  | 0 => pure acc
  | Nat.succ rest =>
    M.bind (M.randFloor chars.length) fun i =>
      randomStringAux (acc.push (chars.data.getD i (Char.ofNat 0))) rest

/-- `randomString` (mailService.ts lines 7-14). -/
def randomString (length : Nat) : M String := randomStringAux "" length

/-- The domain retry loop of `createRealAccount` (lines 83-88): up to 3
calls to `getAvailableDomains`, sleeping 500ms after each empty result;
the argument is the remaining iteration count. -/
def domainRetryLoop : Nat → M (List Json)
  | 0 => pure []
  | Nat.succ rest =>
    M.bind getAvailableDomains fun domains =>
      if domains.length > 0 then pure domains
      else
        M.bind (M.sleep 500) fun _ =>
          domainRetryLoop rest

/-- The Arabic "no domains available" error text of line 91. -/
def noDomainsMsg : String := "لا يوجد نطاقات متاحة حالياً من الخادم. يرجى المحاولة لاحقاً."

/-- The Arabic "username unavailable" error text of line 126. -/
def unavailableMsg : String := "اسم المستخدم هذا غير متاح (محجوز مسبقاً). يرجى اختيار اسم آخر."

/-- The Arabic "could not create account after several attempts" error
text of line 137. -/
def exhaustedMsg : String := "تعذر إنشاء حساب جديد بعد عدة محاولات."

/-- The Arabic status-bearing creation failure text of line 132. -/
def creationFailedMsg (status : Nat) : String := "فشل إنشاء الحساب: " ++ toString status

/-- The "login failed" error text of line 147. -/
def loginFailedMsg : String := "فشل تسجيل الدخول (Token Failed)"

/-- The selection `domains[randomIndex].domain` of line 96, coerced to a
string by the template literal of line 110. -/
def pickDomain (domains : List Json) (randomIndex : Nat) : String :=
  jsToString (Json.getField (domains.getD randomIndex Json.null) "domain")

/-- Domain discovery with retry and random selection (lines 82-96): run
the retry loop, fail if still empty, else pick `domains[randomIndex]` and
read its `.domain` property (coerced to a string by the template literal
of line 110). -/
def resolveDomainDiscover : M String :=
  M.bind (domainRetryLoop 3) fun domains =>
    if domains.length = 0 then M.throw (Err.error noDomainsMsg)
    else
      M.bind (M.randFloor domains.length) fun randomIndex =>
        pure (pickDomain domains randomIndex)

/-- Domain resolution (lines 78-97): `let domain = customDomain; if
(!domain) ...` — `undefined` and the empty string are falsy and trigger
discovery. -/
def resolveDomain : Option String → M String
  | some d => if d = "" then resolveDomainDiscover else pure d
  | none => resolveDomainDiscover

/-- The creation-request options of lines 112-116. -/
def creationOpts (address password : String) : ReqOptions :=
  { method := "POST"
    headers := [("Content-Type", "application/json")]
    body := some (Json.obj [("address", Json.str address), ("password", Json.str password)]) }

/-- The branch on the creation response (lines 118-133): success breaks
out with the `(address, password)` of this attempt; a 422 either fails
hard (custom mode) or continues into `next`, the run of the remaining
iterations; any other non-ok status reads the error text and fails with
the status-bearing message. -/
def creationCont (isCustom : Bool) (address password : String)
    (next : M (String × String)) :
    Response → M (String × String) := fun createRes =>
  if createRes.ok then pure (address, password)
  else
    if createRes.status = 422 then
      if isCustom then M.throw (Err.error unavailableMsg)
      else next
    else
      M.bind createRes.textM fun _errText =>
        M.throw (Err.error (creationFailedMsg createRes.status))

/-- One iteration of the account-creation retry loop (lines 107-134):
generate the username (the supplied one in custom mode, a fresh random one
otherwise) and a fresh random password, build `address`, issue the
creation request through `smartFetch`, and branch on the response. -/
def creationStep (isCustom : Bool) (customUsername domain : String)
    (next : M (String × String)) : M (String × String) :=
  M.bind (if isCustom then pure customUsername else randomString 10) fun currentUsername =>
  M.bind (randomString 12) fun password =>
  M.bind (smartFetch accountsUrl (creationOpts (currentUsername ++ "@" ++ domain) password))
    (creationCont isCustom (currentUsername ++ "@" ++ domain) password next)

/-- The account-creation retry loop (lines 104-138); the argument is the
remaining attempt count (`maxRetries` at the top call).  Returns the
`(address, password)` of the successful attempt; exhaustion of the budget
(`!accountCreated`) throws the "several attempts" error of line 137. -/
def creationLoop (isCustom : Bool) (customUsername domain : String) : Nat → M (String × String)
  | 0 => M.throw (Err.error exhaustedMsg)
  | Nat.succ rest =>
    creationStep isCustom customUsername domain (creationLoop isCustom customUsername domain rest)

/-- The session descriptor of types.ts (`UserSession`); fields the source
assigns from raw JSON keep type `Option Json` (`none` = `undefined`). -/
structure UserSession where
  emailAddress : String
  createdAt : Nat
  expiresAt : Option Nat
  isPremium : Bool
  isMock : Option Bool
  token : Option Json
  accountId : Option Json
  password : Option String

/-- The `/me` request options of lines 153-155 (bearer authorization with
the token coerced into the header template literal). -/
def meOpts (token : Option Json) : ReqOptions :=
  { method := "GET"
    headers := [("Authorization", "Bearer " ++ jsToString token)]
    body := none }

/-- The session record assembled in lines 158-170. -/
def mkSession (isCustom : Bool) (address password : String)
    (token accountId : Option Json) (now : Nat) : UserSession :=
  { emailAddress := address
    createdAt := now
    expiresAt := if isCustom then none else some (now + 10 * 60 * 1000)
    isPremium := isCustom
    isMock := some false
    token := token
    accountId := accountId
    password := some password }

/-- Steps 3-4 of `createRealAccount` (lines 140-170): token exchange
(non-ok is a hard "login failed" error), the read `tokenData.token` (a
`TypeError` on a `null` token body), `/me` metadata fetch (status never
checked), `new Date()`, the read `meData.id` inside the returned object
literal (a `TypeError` on a `null` `/me` body), then assembly of the
session with `expiresAt = isCustom ? null : now + 10 minutes`. -/
def finalize (isCustom : Bool) (address password : String) : M UserSession :=
  M.bind (smartFetch tokenUrl (creationOpts address password)) fun tokenRes =>
  if !tokenRes.ok then M.throw (Err.error loginFailedMsg)
  else
    M.bind tokenRes.jsonM fun tokenData =>
    M.bind (M.lift (Json.getFieldE tokenData "token")) fun token =>
    M.bind (smartFetch meUrl (meOpts token)) fun meRes =>
    M.bind meRes.jsonM fun meData =>
    M.bind M.dateNow fun now =>
    M.bind (M.lift (Json.getFieldE meData "id")) fun accountId =>
    pure (mkSession isCustom address password token accountId now)

/-- `!!customUsername`: supplied and non-empty. -/
def optStrTruthy : Option String → Bool
  | none => false
  | some s => !(s == "")

/-- `createRealAccount` (mailService.ts lines 76-176): resolve a domain,
run the creation retry loop with `maxRetries = isCustom ? 1 : 5`, then
authenticate and assemble the session; the outer catch logs and
rethrows. -/
def createRealAccount (customUsername customDomain : Option String) : M UserSession :=
  M.tryCatch
    (M.bind (resolveDomain customDomain) fun domain =>
      let isCustom := optStrTruthy customUsername
      M.bind
        (creationLoop isCustom (customUsername.getD "") domain (if isCustom then 1 else 5))
        fun ap => finalize isCustom ap.1 ap.2)
    (fun e => M.throw e)

/-- The partial message record returned by `fetchMessageDetails`. -/
structure MessageDetailPartial where
  body : String
  hasFullDetails : Bool

/-- The body-resolution ladder of lines 217-224, applied to a non-null
parsed response: a non-empty `html` array is joined with the empty
separator, a non-empty `html` string is used directly, else a truthy
`text` field, else the "No content" sentinel.  (`resolveBodyE` below adds
the `TypeError` that `data.html` raises on a `null` body.) -/
def resolveBody (data : Json) : String :=
  match Json.getField data "html" with
  | some (Json.arr elems) =>
    if elems.length > 0 then String.join (elems.map jsStrElem)
    else textFallback data
  | some (Json.str s) =>
    if s.length > 0 then s else textFallback data
  | _ => textFallback data
where
  /-- `else if (data.text) bodyContent = data.text;` -/
  textFallback (data : Json) : String :=
    match Json.getField data "text" with
    | some t => if t.truthy then t.jsStr else "No content"
    | none => "No content"

/-- The ladder as executed: `data.html` on a `null` parsed body throws a
`TypeError`; on any other value the pure ladder above applies. -/
def resolveBodyE : Json → Except Err String
  | Json.null => Except.error Err.typeError
  | data => Except.ok (resolveBody data)

/-- The authorized GET options of lines 212-214. -/
def msgOpts (token : String) : ReqOptions :=
  { method := "GET", headers := [("Authorization", "Bearer " ++ token)], body := none }

/-- `fetchMessageDetails` (mailService.ts lines 210-233): fetch the
message, parse it (the response status is never checked), resolve the body
by the ladder above (a `TypeError` on a `null` parsed body); any exception
yields `null` (`none`). -/
def fetchMessageDetails (token messageId : String) : M (Option MessageDetailPartial) :=
  M.tryCatch
    (M.bind (smartFetch (API_BASE ++ "/messages/" ++ messageId) (msgOpts token))
      fun res =>
      M.bind res.jsonM fun data =>
      M.bind (M.lift (resolveBodyE data)) fun bodyContent =>
        pure (some { body := bodyContent, hasFullDetails := true }))
    (fun _ => pure none)

/-- The authorized DELETE options of lines 237-240. -/
def deleteOpts (token : String) : ReqOptions :=
  { method := "DELETE", headers := [("Authorization", "Bearer " ++ token)], body := none }

/-- `deleteMessage` (mailService.ts lines 235-245): issue the DELETE and
return `true` whenever `smartFetch` resolves — the response status is not
inspected; only a thrown fetch yields `false`. -/
def deleteMessage (token messageId : String) : M Bool :=
  M.tryCatch
    (M.bind (smartFetch (API_BASE ++ "/messages/" ++ messageId) (deleteOpts token))
      fun _ => pure true)
    (fun _ => pure false)

/-! ## Counting requests in a trace -/
/-- Whether an event is a fetch whose URL satisfies `P`. -/
def eventMatches (P : String → Bool) : Event → Bool
  | .fetch req _ => P req.url
  | .sleep _ => false

/-- Number of fetch events in a trace whose URL satisfies `P`. -/
def countFetches (P : String → Bool) (tr : List Event) : Nat :=
  (tr.filter (eventMatches P)).length

/-! ## URL discrimination -/
/-- Whether a URL is the account-creation endpoint.  Each creation attempt
issues exactly one direct fetch to this URL (a proxied transport retry of
the same attempt targets the proxy host instead), so counting these events
counts creation attempts. -/
def isAccountsUrl (u : String) : Bool := u == accountsUrl

/-! ## Runs of the creation loop -/
/-- The environment answers every request to `url` with some response of
status `s`. -/
def RespondsStatus (env : Env) (url : String) (s : Nat) : Prop :=
  ∀ n opts, ∃ resp, env.net n ⟨url, opts⟩ = some resp ∧ resp.status = s

/-- The environment answers every request to `url` with the fixed
response `resp`. -/
def RespondsWith (env : Env) (url : String) (resp : Response) : Prop :=
  ∀ n opts, env.net n ⟨url, opts⟩ = some resp

/-! ## Concrete environments used by the witnesses -/
def domA : Json :=
  Json.obj [("domain", Json.str "a.com"), ("isActive", Json.bool true),
    ("isPrivate", Json.bool false)]

def domB : Json :=
  Json.obj [("domain", Json.str "b.com"), ("isActive", Json.bool false),
    ("isPrivate", Json.bool false)]

def dataCatalog : Json := Json.obj [("hydra:member", Json.arr [domA, domB])]

def respCatalog : Response := ⟨200, some dataCatalog, ""⟩

/-- A network where every request yields the two-domain catalog. -/
def envCatalog : Env := ⟨fun _ _ => some respCatalog, fun _ => 0, fun _ => 0⟩

def resp422 : Response := ⟨422, none, ""⟩

/-- A network where the creation endpoint always answers 422 and
everything else is fine. -/
def env422 : Env :=
  ⟨fun _ req => if req.url = accountsUrl then some resp422
    else some ⟨200, some (Json.obj []), ""⟩, fun _ => 0, fun _ => 0⟩

def resp404 : Response := ⟨404, none, ""⟩

/-- A network where every request yields a 404 with an unparseable body. -/
def env404 : Env := ⟨fun _ _ => some resp404, fun _ => 0, fun _ => 0⟩

def resp201 : Response := ⟨201, some (Json.obj []), ""⟩

def tokData : Json := Json.obj [("token", Json.str "tok")]

def respTok : Response := ⟨200, some tokData, ""⟩

def meData1 : Json := Json.obj [("id", Json.str "acc1")]

def respMe : Response := ⟨200, some meData1, ""⟩

/-- A network where the whole provisioning flow succeeds. -/
def envOK : Env :=
  ⟨fun _ req =>
    if req.url = accountsUrl then some resp201
    else if req.url = tokenUrl then some respTok
    else if req.url = meUrl then some respMe
    else some ⟨200, some (Json.obj []), ""⟩, fun _ => 7, fun _ => 0⟩

def respMe500 : Response := ⟨500, some meData1, ""⟩

/-- Like `envOK` but the `/me` endpoint answers 500 with a JSON body. -/
def envMe500 : Env :=
  ⟨fun _ req =>
    if req.url = accountsUrl then some resp201
    else if req.url = tokenUrl then some respTok
    else if req.url = meUrl then some respMe500
    else some ⟨200, some (Json.obj []), ""⟩, fun _ => 7, fun _ => 0⟩

def respMeBadBody : Response := ⟨500, none, ""⟩

/-- Like `envOK` but the `/me` body fails to parse. -/
def envMeBad : Env :=
  ⟨fun _ req =>
    if req.url = accountsUrl then some resp201
    else if req.url = tokenUrl then some respTok
    else if req.url = meUrl then some respMeBadBody
    else some ⟨200, some (Json.obj []), ""⟩, fun _ => 7, fun _ => 0⟩

def resp403 : Response := ⟨403, none, ""⟩

/-- A network whose first request is blocked with 403 and whose later
requests succeed with 201. -/
def envBlocked : Env :=
  ⟨fun n _ => if n = 0 then some resp403 else some resp201, fun _ => 5, fun _ => 0⟩

def sessOK : UserSession :=
  mkSession false "aaaaaaaaaa@x.com" "aaaaaaaaaaaa"
    (some (Json.str "tok")) (some (Json.str "acc1")) 7

def trOK : List Event :=
  [Event.fetch ⟨accountsUrl, creationOpts "aaaaaaaaaa@x.com" "aaaaaaaaaaaa"⟩ (some resp201),
   Event.fetch ⟨tokenUrl, creationOpts "aaaaaaaaaa@x.com" "aaaaaaaaaaaa"⟩ (some respTok),
   Event.fetch ⟨meUrl, meOpts (some (Json.str "tok"))⟩ (some respMe)]

def ev404A : Event := Event.fetch ⟨stratAUrl 0, defaultOpts⟩ (some resp404)

def ev404B : Event := Event.fetch ⟨stratBUrl 0, defaultOpts⟩ (some resp404)

def dataMsg : Json :=
  Json.obj [("html", Json.arr [Json.str "<p>", Json.str "hi</p>"]), ("text", Json.str "plain")]

def respMsg : Response := ⟨200, some dataMsg, ""⟩

/-- A network where every request yields the two-fragment HTML message. -/
def envMsg : Env := ⟨fun _ _ => some respMsg, fun _ => 0, fun _ => 0⟩

/-- A network where every fetch rejects. -/
def envDown : Env := ⟨fun _ _ => none, fun _ => 0, fun _ => 0⟩

/-- A network whose first request is blocked with 403 and whose later
requests (the proxied fallback included) reject. -/
def envBlockedDown : Env :=
  ⟨fun n _ => if n = 0 then some resp403 else none, fun _ => 0, fun _ => 0⟩

/-- A 500 `/me` answer whose body parses as the JSON value `null`. -/
def respMeNull : Response := ⟨500, some Json.null, ""⟩

/-- Like `envOK` but the `/me` body parses to `null`. -/
def envMeNull : Env :=
  ⟨fun _ req =>
    if req.url = accountsUrl then some resp201
    else if req.url = tokenUrl then some respTok
    else if req.url = meUrl then some respMeNull
    else some ⟨200, some (Json.obj []), ""⟩, fun _ => 7, fun _ => 0⟩

/-- The trace of the `envMeNull` run: the `TypeError` from `meData.id` is
raised after all three requests were issued. -/
def trMeNull : List Event :=
  [Event.fetch ⟨accountsUrl, creationOpts "aaaaaaaaaa@x.com" "aaaaaaaaaaaa"⟩ (some resp201),
   Event.fetch ⟨tokenUrl, creationOpts "aaaaaaaaaa@x.com" "aaaaaaaaaaaa"⟩ (some respTok),
   Event.fetch ⟨meUrl, meOpts (some (Json.str "tok"))⟩ (some respMeNull)]

/-! ## Run lemmas for the monad primitives -/
lemma pure_run {α : Type} (a : α) (env : Env) (n : Nat) :
    (pure a : M α) env n = (Except.ok a, n, []) := rfl

lemma throw_run {α : Type} (e : Err) (env : Env) (n : Nat) :
    (M.throw e : M α) env n = (Except.error e, n, []) := rfl

lemma dateNow_run (env : Env) (n : Nat) :
    M.dateNow env n = (Except.ok (env.time n), n + 1, []) := rfl

lemma randFloor_run (k : Nat) (env : Env) (n : Nat) :
    M.randFloor k env n = (Except.ok (env.rand n % k), n + 1, []) := rfl

lemma sleep_run (ms : Nat) (env : Env) (n : Nat) :
    M.sleep ms env n = (Except.ok (), n + 1, [Event.sleep ms]) := rfl

lemma doFetch_run_some {env : Env} {n : Nat} {url : String} {opts : ReqOptions} {resp : Response}
    (h : env.net n ⟨url, opts⟩ = some resp) :
    M.doFetch url opts env n = (Except.ok resp, n + 1, [Event.fetch ⟨url, opts⟩ (some resp)]) := by
  simp only [M.doFetch, h]

lemma doFetch_run_none {env : Env} {n : Nat} {url : String} {opts : ReqOptions}
    (h : env.net n ⟨url, opts⟩ = none) :
    M.doFetch url opts env n = (Except.error Err.network, n + 1, [Event.fetch ⟨url, opts⟩ none]) := by
  simp only [M.doFetch, h]

lemma jsonM_run_some {r : Response} {j : Json} (h : r.jsonBody = some j) (env : Env) (n : Nat) :
    r.jsonM env n = (Except.ok j, n, []) := by
  simp only [Response.jsonM, h]

lemma jsonM_run_none {r : Response} (h : r.jsonBody = none) (env : Env) (n : Nat) :
    r.jsonM env n = (Except.error Err.jsonParse, n, []) := by
  simp only [Response.jsonM, h]

lemma textM_run (r : Response) (env : Env) (n : Nat) :
    r.textM env n = (Except.ok r.textBody, n, []) := rfl

lemma bind_ok {α β : Type} {m : M α} {k : α → M β} {env : Env} {n n₁ n₂ : Nat}
    {a : α} {tr₁ tr₂ : List Event} {r : Except Err β}
    (h₁ : m env n = (Except.ok a, n₁, tr₁)) (h₂ : k a env n₁ = (r, n₂, tr₂)) :
    M.bind m k env n = (r, n₂, tr₁ ++ tr₂) := by
  simp only [M.bind, h₁, h₂]

lemma bind_err {α β : Type} {m : M α} {k : α → M β} {env : Env} {n n₁ : Nat}
    {e : Err} {tr₁ : List Event}
    (h₁ : m env n = (Except.error e, n₁, tr₁)) :
    M.bind m k env n = (Except.error e, n₁, tr₁) := by
  simp only [M.bind, h₁]

lemma bind_inv {α β : Type} {m : M α} {k : α → M β} {env : Env} {n n₂ : Nat}
    {r : Except Err β} {tr : List Event}
    (h : M.bind m k env n = (r, n₂, tr)) :
    (∃ e n₁, m env n = (Except.error e, n₁, tr) ∧ r = Except.error e ∧ n₂ = n₁) ∨
    (∃ a n₁ tr₁ tr₂, m env n = (Except.ok a, n₁, tr₁) ∧ k a env n₁ = (r, n₂, tr₂) ∧
      tr = tr₁ ++ tr₂) := by
  rcases hm : m env n with ⟨r₁, n₁, tr₁⟩
  cases r₁ with
  | error e =>
    left
    have h2 := bind_err (k := k) hm
    rw [h] at h2
    simp only [Prod.mk.injEq] at h2
    obtain ⟨rfl, rfl, rfl⟩ := h2
    exact ⟨e, _, rfl, rfl, rfl⟩
  | ok a =>
    right
    rcases hk : k a env n₁ with ⟨r₂, n₃, tr₂⟩
    have h2 := bind_ok hm hk
    rw [h] at h2
    simp only [Prod.mk.injEq] at h2
    obtain ⟨rfl, rfl, rfl⟩ := h2
    exact ⟨a, _, _, tr₂, rfl, hk, rfl⟩

lemma tryCatch_ok {α : Type} {body : M α} {g : Err → M α} {env : Env} {n n₁ : Nat}
    {a : α} {tr₁ : List Event}
    (h : body env n = (Except.ok a, n₁, tr₁)) :
    M.tryCatch body g env n = (Except.ok a, n₁, tr₁) := by
  simp only [M.tryCatch, h]

lemma tryCatch_err {α : Type} {body : M α} {g : Err → M α} {env : Env} {n n₁ n₂ : Nat}
    {e : Err} {tr₁ tr₂ : List Event} {r : Except Err α}
    (h₁ : body env n = (Except.error e, n₁, tr₁)) (h₂ : g e env n₁ = (r, n₂, tr₂)) :
    M.tryCatch body g env n = (r, n₂, tr₁ ++ tr₂) := by
  simp only [M.tryCatch, h₁, h₂]

lemma tryCatch_inv {α : Type} {body : M α} {g : Err → M α} {env : Env} {n n₂ : Nat}
    {r : Except Err α} {tr : List Event}
    (h : M.tryCatch body g env n = (r, n₂, tr)) :
    (body env n = (r, n₂, tr) ∧ ∃ a, r = Except.ok a) ∨
    (∃ e n₁ tr₁ tr₂, body env n = (Except.error e, n₁, tr₁) ∧
      g e env n₁ = (r, n₂, tr₂) ∧ tr = tr₁ ++ tr₂) := by
  rcases hm : body env n with ⟨r₁, n₁, tr₁⟩
  cases r₁ with
  | error e =>
    right
    rcases hk : g e env n₁ with ⟨r₂, n₃, tr₂⟩
    have h2 := tryCatch_err hm hk
    rw [h] at h2
    simp only [Prod.mk.injEq] at h2
    obtain ⟨rfl, rfl, rfl⟩ := h2
    exact ⟨e, _, _, tr₂, rfl, hk, rfl⟩
  | ok a =>
    left
    have h2 := tryCatch_ok (g := g) hm
    rw [h] at h2
    simp only [Prod.mk.injEq] at h2
    obtain ⟨rfl, rfl, rfl⟩ := h2
    exact ⟨rfl, a, rfl⟩

/-! ## Characterization of `smartFetch` -/
lemma Response.ok_of_status {r : Response} (h1 : 200 ≤ r.status) (h2 : r.status < 300) :
    r.ok = true := by
  simp [Response.ok, h1, h2]

lemma Response.not_ok_of_status {r : Response} (h : ¬ (200 ≤ r.status ∧ r.status < 300)) :
    r.ok = false := by
  rcases Nat.lt_or_ge r.status 200 with h1 | h1
  · simp [Response.ok, Nat.not_le_of_lt h1]
  · have h2 : ¬ r.status < 300 := fun hlt => h ⟨h1, hlt⟩
    simp [Response.ok, h2]

lemma Response.status_bounds_of_ok {r : Response} (h : r.ok = true) :
    200 ≤ r.status ∧ r.status < 300 := by
  simpa [Response.ok] using h

/-- Direct success: a resolved response whose status is neither 403 nor
429 is returned as-is, with no second request. -/
lemma smartFetch_direct {env : Env} {n : Nat} {url : String} {opts : ReqOptions} {resp : Response}
    (h : env.net n ⟨url, opts⟩ = some resp)
    (h403 : ¬ resp.status = 403) (h429 : ¬ resp.status = 429) :
    smartFetch url opts env n = (Except.ok resp, n + 1, [Event.fetch ⟨url, opts⟩ (some resp)]) := by
  have hc : ¬ (resp.status = 403 ∨ resp.status = 429) := by
    rintro (hh | hh)
    · exact h403 hh
    · exact h429 hh
  unfold smartFetch
  refine tryCatch_ok ?_
  have h2 : (if resp.status = 403 ∨ resp.status = 429 then (M.throw (Err.error "Blocked") : M Response)
      else pure resp) env (n + 1) = (Except.ok resp, n + 1, []) := by
    rw [if_neg hc]
    exact pure_run resp env (n + 1)
  have h3 := bind_ok (k := fun res : Response =>
    if res.status = 403 ∨ res.status = 429 then (M.throw (Err.error "Blocked") : M Response)
    else pure res) (doFetch_run_some h) h2
  simpa using h3

/-- Proxy fallback after a 403/429 direct response. -/
lemma smartFetch_blocked {env : Env} {n : Nat} {url : String} {opts : ReqOptions} {resp : Response}
    {pout : Option Response}
    (h : env.net n ⟨url, opts⟩ = some resp)
    (hb : resp.status = 403 ∨ resp.status = 429)
    (hp : env.net (n + 2) ⟨proxyUrlOf url (env.time (n + 1)), opts⟩ = pout) :
    smartFetch url opts env n =
      ((match pout with
        | some presp => Except.ok presp
        | none => Except.error Err.network), n + 3,
       [Event.fetch ⟨url, opts⟩ (some resp),
        Event.fetch ⟨proxyUrlOf url (env.time (n + 1)), opts⟩ pout]) := by
  unfold smartFetch
  have h2 : (if resp.status = 403 ∨ resp.status = 429 then (M.throw (Err.error "Blocked") : M Response)
      else pure resp) env (n + 1) = (Except.error (Err.error "Blocked"), n + 1, []) := by
    rw [if_pos hb]
    exact throw_run _ env (n + 1)
  have hbody := bind_ok (k := fun res : Response =>
    if res.status = 403 ∨ res.status = 429 then (M.throw (Err.error "Blocked") : M Response)
    else pure res) (doFetch_run_some h) h2
  cases pout with
  | some presp =>
    have hfetch : M.doFetch (PROXY_BASE ++ encodeURIComponent url ++ "&_cb=" ++
        toString (env.time (n + 1))) opts env (n + 2) =
        (Except.ok presp, n + 3, [Event.fetch ⟨proxyUrlOf url (env.time (n + 1)), opts⟩ (some presp)]) := by
      have := doFetch_run_some hp
      simpa [proxyUrlOf] using this
    have hhandler := bind_ok (k := fun t =>
      M.doFetch (PROXY_BASE ++ encodeURIComponent url ++ "&_cb=" ++ toString t) opts)
      (dateNow_run env (n + 1)) hfetch
    have := tryCatch_err (g := fun _ =>
      M.bind M.dateNow fun t =>
        M.doFetch (PROXY_BASE ++ encodeURIComponent url ++ "&_cb=" ++ toString t) opts)
      hbody hhandler
    simpa using this
  | none =>
    have hfetch : M.doFetch (PROXY_BASE ++ encodeURIComponent url ++ "&_cb=" ++
        toString (env.time (n + 1))) opts env (n + 2) =
        (Except.error Err.network, n + 3, [Event.fetch ⟨proxyUrlOf url (env.time (n + 1)), opts⟩ none]) := by
      have := doFetch_run_none hp
      simpa [proxyUrlOf] using this
    have hhandler := bind_ok (k := fun t =>
      M.doFetch (PROXY_BASE ++ encodeURIComponent url ++ "&_cb=" ++ toString t) opts)
      (dateNow_run env (n + 1)) hfetch
    have := tryCatch_err (g := fun _ =>
      M.bind M.dateNow fun t =>
        M.doFetch (PROXY_BASE ++ encodeURIComponent url ++ "&_cb=" ++ toString t) opts)
      hbody hhandler
    simpa using this

/-- Proxy fallback after a rejected direct fetch. -/
lemma smartFetch_thrown {env : Env} {n : Nat} {url : String} {opts : ReqOptions}
    {pout : Option Response}
    (h : env.net n ⟨url, opts⟩ = none)
    (hp : env.net (n + 2) ⟨proxyUrlOf url (env.time (n + 1)), opts⟩ = pout) :
    smartFetch url opts env n =
      ((match pout with
        | some presp => Except.ok presp
        | none => Except.error Err.network), n + 3,
       [Event.fetch ⟨url, opts⟩ none,
        Event.fetch ⟨proxyUrlOf url (env.time (n + 1)), opts⟩ pout]) := by
  unfold smartFetch
  have hbody := bind_err (k := fun res =>
    if res.status = 403 ∨ res.status = 429 then (M.throw (Err.error "Blocked") : M Response)
    else pure res) (doFetch_run_none h)
  cases pout with
  | some presp =>
    have hfetch : M.doFetch (PROXY_BASE ++ encodeURIComponent url ++ "&_cb=" ++
        toString (env.time (n + 1))) opts env (n + 2) =
        (Except.ok presp, n + 3, [Event.fetch ⟨proxyUrlOf url (env.time (n + 1)), opts⟩ (some presp)]) := by
      have := doFetch_run_some hp
      simpa [proxyUrlOf] using this
    have hhandler := bind_ok (k := fun t =>
      M.doFetch (PROXY_BASE ++ encodeURIComponent url ++ "&_cb=" ++ toString t) opts)
      (dateNow_run env (n + 1)) hfetch
    have := tryCatch_err (g := fun _ =>
      M.bind M.dateNow fun t =>
        M.doFetch (PROXY_BASE ++ encodeURIComponent url ++ "&_cb=" ++ toString t) opts)
      hbody hhandler
    simpa using this
  | none =>
    have hfetch : M.doFetch (PROXY_BASE ++ encodeURIComponent url ++ "&_cb=" ++
        toString (env.time (n + 1))) opts env (n + 2) =
        (Except.error Err.network, n + 3, [Event.fetch ⟨proxyUrlOf url (env.time (n + 1)), opts⟩ none]) := by
      have := doFetch_run_none hp
      simpa [proxyUrlOf] using this
    have hhandler := bind_ok (k := fun t =>
      M.doFetch (PROXY_BASE ++ encodeURIComponent url ++ "&_cb=" ++ toString t) opts)
      (dateNow_run env (n + 1)) hfetch
    have := tryCatch_err (g := fun _ =>
      M.bind M.dateNow fun t =>
        M.doFetch (PROXY_BASE ++ encodeURIComponent url ++ "&_cb=" ++ toString t) opts)
      hbody hhandler
    simpa using this

/-- Every run of `smartFetch` issues either a single direct request or the
direct request followed by exactly one proxied request. -/
lemma smartFetch_shape (url : String) (opts : ReqOptions) (env : Env) (n : Nat) :
    ∃ r n' tr, smartFetch url opts env n = (r, n', tr) ∧
      (tr = [Event.fetch ⟨url, opts⟩ (env.net n ⟨url, opts⟩)] ∨
       ∃ t pout, tr = [Event.fetch ⟨url, opts⟩ (env.net n ⟨url, opts⟩),
                       Event.fetch ⟨proxyUrlOf url t, opts⟩ pout]) := by
  cases hnet : env.net n ⟨url, opts⟩ with
  | none =>
    have h := smartFetch_thrown hnet rfl
    exact ⟨_, _, _, h, Or.inr ⟨env.time (n + 1), _, rfl⟩⟩
  | some resp =>
    by_cases hb : resp.status = 403 ∨ resp.status = 429
    · have h := smartFetch_blocked hnet hb rfl
      exact ⟨_, _, _, h, Or.inr ⟨env.time (n + 1), _, rfl⟩⟩
    · push_neg at hb
      have h := smartFetch_direct hnet hb.1 hb.2
      exact ⟨_, _, _, h, Or.inl rfl⟩

lemma countFetches_nil (P : String → Bool) : countFetches P [] = 0 := rfl

lemma countFetches_append (P : String → Bool) (tr₁ tr₂ : List Event) :
    countFetches P (tr₁ ++ tr₂) = countFetches P tr₁ + countFetches P tr₂ := by
  simp [countFetches, List.filter_append]

/-- A trace of `smartFetch` contributes `1` to the count when the direct
URL matches and no proxy URL does, `0` when neither does. -/
lemma smartFetch_countFetches {P : String → Bool} {url : String} {opts : ReqOptions}
    {env : Env} {n n' : Nat} {r : Except Err Response} {tr : List Event}
    (h : smartFetch url opts env n = (r, n', tr))
    (hproxy : ∀ t, P (proxyUrlOf url t) = false) :
    countFetches P tr = (if P url then 1 else 0) := by
  obtain ⟨r₀, n₀, tr₀, heq, hshape⟩ := smartFetch_shape url opts env n
  rw [h] at heq
  simp only [Prod.mk.injEq] at heq
  obtain ⟨-, -, rfl⟩ := heq
  rcases hshape with hs | ⟨t, pout, hs⟩
  · rw [hs]
    by_cases hu : P url
    · simp [countFetches, eventMatches, hu]
    · simp [countFetches, eventMatches, hu]
  · rw [hs]
    by_cases hu : P url
    · simp [countFetches, eventMatches, hu, hproxy t]
    · simp [countFetches, eventMatches, hu, hproxy t]

/-- Two strings differ when they differ on an initial segment that the
first factor of an append fully covers. -/
lemma append_ne_of_take_ne (p s q : String) (k : Nat) (hk : k ≤ p.data.length)
    (h : p.data.take k ≠ q.data.take k) : p ++ s ≠ q := by
  intro he
  apply h
  have hd : q.data = p.data ++ s.data := by
    rw [← he, String.data_append]
  rw [hd, List.take_append_of_le_length hk]

lemma proxyUrl_ne_accounts (url : String) (t : Nat) : proxyUrlOf url t ≠ accountsUrl := by
  have h := append_ne_of_take_ne PROXY_BASE
    (encodeURIComponent url ++ "&_cb=" ++ toString t) accountsUrl 9 (by decide) (by decide)
  simpa [proxyUrlOf, String.append_assoc] using h

lemma isAccountsUrl_proxy (url : String) (t : Nat) : isAccountsUrl (proxyUrlOf url t) = false :=
  beq_eq_false_iff_ne.mpr (proxyUrl_ne_accounts url t)

lemma isAccountsUrl_stratA (t : Nat) : isAccountsUrl (stratAUrl t) = false := by
  apply beq_eq_false_iff_ne.mpr
  have h := append_ne_of_take_ne (API_BASE ++ "/domains?page=1&itemsPerPage=100&_t=")
    (toString t) accountsUrl 21 (by decide) (by decide)
  simpa [stratAUrl, String.append_assoc] using h

lemma isAccountsUrl_stratB (t : Nat) : isAccountsUrl (stratBUrl t) = false := by
  apply beq_eq_false_iff_ne.mpr
  have h := append_ne_of_take_ne (API_BASE ++ "/domains?_t=")
    (toString t) accountsUrl 21 (by decide) (by decide)
  simpa [stratBUrl, String.append_assoc] using h

lemma isAccountsUrl_token : isAccountsUrl tokenUrl = false := by decide

lemma isAccountsUrl_me : isAccountsUrl meUrl = false := by decide

lemma isAccountsUrl_self : isAccountsUrl accountsUrl = true := by decide

/-! ## Runs of the parsing components -/
lemma ite_throw_pure_run (c : Prop) [Decidable c] (env : Env) (n : Nat) :
    ∃ r, (if c then (M.throw Err.typeError : M (List Json)) else pure []) env n = (r, n, []) := by
  by_cases hc : c
  · rw [if_pos hc]
    exact ⟨_, rfl⟩
  · rw [if_neg hc]
    exact ⟨_, rfl⟩

lemma lift_run {α : Type} (r : Except Err α) (env : Env) (n : Nat) :
    M.lift r env n = (r, n, []) := rfl

lemma lift_inv {α : Type} {r out : Except Err α} {env : Env} {n n' : Nat}
    {tr : List Event} (h : M.lift r env n = (out, n', tr)) :
    out = r ∧ n' = n ∧ tr = [] := by
  have h2 : M.lift r env n = (r, n, []) := rfl
  rw [h] at h2
  simp only [Prod.mk.injEq] at h2
  exact ⟨h2.1, h2.2.1, h2.2.2⟩

lemma getFieldE_of_ne_null {data : Json} (h : ¬ data = Json.null) (key : String) :
    Json.getFieldE data key = Except.ok (Json.getField data key) := by
  cases data with
  | null => exact absurd rfl h
  | str s => rfl
  | num m => rfl
  | bool b => rfl
  | arr elems => rfl
  | obj fields => rfl

lemma getFieldE_ok_eq {data : Json} {key : String} {v : Option Json}
    (h : Json.getFieldE data key = Except.ok v) : Json.getField data key = v := by
  cases data with
  | null => exact Except.noConfusion h
  | str s => injection h
  | num m => injection h
  | bool b => injection h
  | arr elems => injection h
  | obj fields => injection h

/-- Every element of a successfully evaluated strict filter has a truthy
`isActive` field. -/
lemma filterActive_ok_active (ds : List Json) : ∀ {l : List Json},
    filterActive ds = Except.ok l →
    ∀ d ∈ l, optTruthy (Json.getField d "isActive") = true := by
  induction ds with
  | nil =>
    intro l h d hd
    simp only [filterActive] at h
    injection h with h
    subst h
    cases hd
  | cons x rest ih =>
    intro l h d hd
    simp only [filterActive] at h
    cases hx : Json.getFieldE x "isActive" with
    | error e =>
      rw [hx] at h
      cases h
    | ok v =>
      rw [hx] at h
      cases hr : filterActive rest with
      | error e =>
        rw [hr] at h
        cases h
      | ok tail =>
        rw [hr] at h
        injection h with h
        subst h
        cases hv : optTruthy v with
        | false =>
          rw [hv] at hd
          simp at hd
          exact ih hr d hd
        | true =>
          rw [hv] at hd
          simp at hd
          rcases hd with rfl | hd2
          · rw [getFieldE_ok_eq hx]
            exact hv
          · exact ih hr d hd2

lemma memberOrEmpty_run (data : Json) (env : Env) (n : Nat) :
    ∃ r, memberOrEmpty data env n = (r, n, []) := by
  unfold memberOrEmpty
  cases hg : Json.getFieldE data "hydra:member" with
  | error e => exact ⟨_, rfl⟩
  | ok mv =>
    cases mv with
    | none => exact ⟨_, rfl⟩
    | some j =>
      cases j with
      | arr elems => exact ⟨_, rfl⟩
      | null => exact ⟨_, rfl⟩
      | str s =>
        show ∃ r, (if (Json.str s).truthy = true then (M.throw Err.typeError : M (List Json))
          else pure []) env n = (r, n, [])
        exact ite_throw_pure_run _ env n
      | num m =>
        show ∃ r, (if (Json.num m).truthy = true then (M.throw Err.typeError : M (List Json))
          else pure []) env n = (r, n, [])
        exact ite_throw_pure_run _ env n
      | bool b =>
        show ∃ r, (if (Json.bool b).truthy = true then (M.throw Err.typeError : M (List Json))
          else pure []) env n = (r, n, [])
        exact ite_throw_pure_run _ env n
      | obj fields =>
        show ∃ r, (if (Json.obj fields).truthy = true then
          (M.throw Err.typeError : M (List Json)) else pure []) env n = (r, n, [])
        exact ite_throw_pure_run _ env n

lemma memberOrEmpty_run_arr {data : Json} {elems : List Json}
    (hmem : Json.getFieldE data "hydra:member" = Except.ok (some (Json.arr elems)))
    (env : Env) (n : Nat) :
    memberOrEmpty data env n = (Except.ok elems, n, []) := by
  unfold memberOrEmpty
  rw [hmem]
  rfl

lemma strategyParse_run_arr {res : Response} {data : Json} {elems : List Json}
    (hjson : res.jsonBody = some data)
    (hmem : Json.getFieldE data "hydra:member" = Except.ok (some (Json.arr elems)))
    (env : Env) (n : Nat) :
    strategyParse res env n = (filterActive elems, n, []) := by
  unfold strategyParse
  have h3 := bind_ok (k := fun domains => M.lift (filterActive domains))
    (memberOrEmpty_run_arr hmem env n) (lift_run (filterActive elems) env n)
  have h4 := bind_ok (k := fun data => M.bind (memberOrEmpty data) fun domains =>
    M.lift (filterActive domains)) (jsonM_run_some hjson env n) h3
  simpa using h4

lemma strategyParse_inv {res : Response} {env : Env} {n n' : Nat}
    {r : Except Err (List Json)} {tr : List Event}
    (h : strategyParse res env n = (r, n', tr)) :
    n' = n ∧ tr = [] ∧
      ∀ ds, r = Except.ok ds → ∀ d ∈ ds, optTruthy (Json.getField d "isActive") = true := by
  cases hjson : res.jsonBody with
  | none =>
    have h2 : strategyParse res env n = (Except.error Err.jsonParse, n, []) := by
      unfold strategyParse
      exact bind_err (k := fun data => M.bind (memberOrEmpty data) fun domains =>
        M.lift (filterActive domains)) (jsonM_run_none hjson env n)
    rw [h] at h2
    simp only [Prod.mk.injEq] at h2
    obtain ⟨rfl, rfl, rfl⟩ := h2
    refine ⟨rfl, rfl, ?_⟩
    rintro ds hds
    cases hds
  | some data =>
    obtain ⟨rm, hrm⟩ := memberOrEmpty_run data env n
    cases rm with
    | error e =>
      have h2 : strategyParse res env n = (Except.error e, n, []) := by
        unfold strategyParse
        have hb := bind_err (k := fun domains => M.lift (filterActive domains)) hrm
        have h4 := bind_ok (k := fun data => M.bind (memberOrEmpty data) fun domains =>
          M.lift (filterActive domains)) (jsonM_run_some hjson env n) hb
        simpa using h4
      rw [h] at h2
      simp only [Prod.mk.injEq] at h2
      obtain ⟨rfl, rfl, rfl⟩ := h2
      refine ⟨rfl, rfl, ?_⟩
      rintro ds hds
      cases hds
    | ok domains =>
      have h2 : strategyParse res env n = (filterActive domains, n, []) := by
        unfold strategyParse
        have hb := bind_ok (k := fun domains => M.lift (filterActive domains))
          hrm (lift_run (filterActive domains) env n)
        have h4 := bind_ok (k := fun data => M.bind (memberOrEmpty data) fun domains =>
          M.lift (filterActive domains)) (jsonM_run_some hjson env n) hb
        simpa using h4
      rw [h] at h2
      simp only [Prod.mk.injEq] at h2
      obtain ⟨hr, rfl, rfl⟩ := h2
      refine ⟨rfl, rfl, ?_⟩
      rintro ds hds
      rw [hr] at hds
      exact filterActive_ok_active domains hds

/-- The conditional parse step shared by both strategies: a pure
computation whose ok results contain only active entries. -/
lemma parseBranch_inv {res : Response} {env : Env} {n n' : Nat}
    {r : Except Err (List Json)} {tr : List Event}
    (h : (if res.ok then strategyParse res else (pure [] : M (List Json))) env n = (r, n', tr)) :
    n' = n ∧ tr = [] ∧
      ∀ ds, r = Except.ok ds → ∀ d ∈ ds, optTruthy (Json.getField d "isActive") = true := by
  cases hok : res.ok with
  | true =>
    rw [if_pos hok] at h
    exact strategyParse_inv h
  | false =>
    rw [if_neg (by simp [hok])] at h
    have h2 := pure_run ([] : List Json) env n
    rw [h] at h2
    simp only [Prod.mk.injEq] at h2
    obtain ⟨rfl, rfl, rfl⟩ := h2
    refine ⟨rfl, rfl, ?_⟩
    rintro ds hds
    injection hds with hds
    subst hds
    intro d hd
    cases hd

/-! ## Runs of `randomString` -/
lemma randomStringAux_run (env : Env) : ∀ (len : Nat) (acc : String) (n : Nat),
    ∃ s, randomStringAux acc len env n = (Except.ok s, n + len, []) := by
  intro len
  induction len with
  | zero =>
    intro acc n
    exact ⟨acc, by simpa using pure_run acc env n⟩
  | succ rest ih =>
    intro acc n
    obtain ⟨s, hs⟩ := ih (acc.push (chars.data.getD (env.rand n % chars.length) (Char.ofNat 0)))
      (n + 1)
    refine ⟨s, ?_⟩
    have h2 := bind_ok (k := fun i =>
      randomStringAux (acc.push (chars.data.getD i (Char.ofNat 0))) rest)
      (randFloor_run chars.length env n) hs
    show M.bind (M.randFloor chars.length) (fun i =>
      randomStringAux (acc.push (chars.data.getD i (Char.ofNat 0))) rest) env n =
      (Except.ok s, n + (rest + 1), [])
    simpa [Nat.add_comm, Nat.add_left_comm, Nat.add_assoc] using h2

lemma randomString_run (len : Nat) (env : Env) (n : Nat) :
    ∃ s, randomString len env n = (Except.ok s, n + len, []) :=
  randomStringAux_run env len "" n

/-- Collapse a bind whose first component deterministically succeeds with
no events. -/
lemma bind_run_of_ok_nil {α β : Type} {m : M α} {k : α → M β} {env : Env} {n n₁ : Nat} {a : α}
    (h : m env n = (Except.ok a, n₁, [])) :
    M.bind m k env n = k a env n₁ := by
  rcases hk : k a env n₁ with ⟨r₂, n₂, tr₂⟩
  rw [bind_ok h hk]
  simp

/-! ## Runs of `getAvailableDomains` -/
lemma gadBody_inv {env : Env} {n n' : Nat} {r : Except Err (List Json)} {tr : List Event}
    (h : gadBody env n = (r, n', tr)) :
    (∀ ds, r = Except.ok ds → ∀ d ∈ ds, optTruthy (Json.getField d "isActive") = true) ∧
    countFetches isAccountsUrl tr = 0 := by
  unfold gadBody at h
  rw [bind_run_of_ok_nil (dateNow_run env n)] at h
  rcases bind_inv h with ⟨e, n₂, hS, rfl, rfl⟩ | ⟨res, n₂, trS, trK, hS, hK, rfl⟩
  · have hc := smartFetch_countFetches hS (fun t => isAccountsUrl_proxy _ t)
    simp only [isAccountsUrl_stratA, if_false] at hc
    refine ⟨?_, hc⟩
    rintro ds hds
    cases hds
  · have hcS := smartFetch_countFetches hS (fun t => isAccountsUrl_proxy _ t)
    simp only [isAccountsUrl_stratA, if_false] at hcS
    rcases bind_inv hK with ⟨e, n₃, hP, rfl, rfl⟩ | ⟨firstActive, n₃, trP, trQ, hP, hQ, rfl⟩
    · obtain ⟨-, rfl, -⟩ := parseBranch_inv hP
      refine ⟨?_, ?_⟩
      · rintro ds hds
        cases hds
      · simpa [countFetches_append] using hcS
    · obtain ⟨rfl, rfl, hact⟩ := parseBranch_inv hP
      by_cases hlen : firstActive.length > 0
      · simp only [if_pos hlen] at hQ
        rw [pure_run] at hQ
        simp only [Prod.mk.injEq] at hQ
        obtain ⟨rfl, rfl, rfl⟩ := hQ
        refine ⟨?_, by simpa [countFetches_append] using hcS⟩
        rintro ds hds
        injection hds with hds
        subst hds
        exact hact _ rfl
      · simp only [if_neg hlen] at hQ
        rw [bind_run_of_ok_nil (dateNow_run env _)] at hQ
        rcases bind_inv hQ with ⟨e, n₄, hS2, rfl, rfl⟩ | ⟨res2, n₄, trS2, trP2, hS2, hP2, rfl⟩
        · have hc2 := smartFetch_countFetches hS2 (fun t => isAccountsUrl_proxy _ t)
          simp only [isAccountsUrl_stratB, if_false] at hc2
          refine ⟨?_, ?_⟩
          · rintro ds hds
            cases hds
          · simp [countFetches_append, hcS, hc2]
        · obtain ⟨-, rfl, hact2⟩ := parseBranch_inv hP2
          have hc2 := smartFetch_countFetches hS2 (fun t => isAccountsUrl_proxy _ t)
          simp only [isAccountsUrl_stratB, if_false] at hc2
          refine ⟨hact2, ?_⟩
          simp [countFetches_append, hcS, hc2]

lemma gad_run_inv {env : Env} {n n' : Nat} {r : Except Err (List Json)} {tr : List Event}
    (h : getAvailableDomains env n = (r, n', tr)) :
    (∃ ds, r = Except.ok ds ∧ ∀ d ∈ ds, optTruthy (Json.getField d "isActive") = true) ∧
    countFetches isAccountsUrl tr = 0 := by
  unfold getAvailableDomains at h
  rcases tryCatch_inv h with ⟨hbody, a, rfl⟩ | ⟨e, n₁, tr₁, tr₂, hbody, hhandler, rfl⟩
  · obtain ⟨hact, hcount⟩ := gadBody_inv hbody
    exact ⟨⟨a, rfl, hact a rfl⟩, hcount⟩
  · obtain ⟨-, hcount⟩ := gadBody_inv hbody
    have h2 := pure_run ([] : List Json) env n₁
    rw [hhandler] at h2
    simp only [Prod.mk.injEq] at h2
    obtain ⟨rfl, rfl, rfl⟩ := h2
    exact ⟨⟨[], rfl, by simp⟩, by simpa [countFetches_append] using hcount⟩

/-- Strategy A success: an ok paginated response with a non-empty active
filter is returned at once, with a single request issued. -/
lemma gad_run_stratA {env : Env} {n : Nat} {resp : Response} {data : Json} {elems l : List Json}
    (hnet : env.net (n + 1) ⟨stratAUrl (env.time n), defaultOpts⟩ = some resp)
    (h403 : ¬ resp.status = 403) (h429 : ¬ resp.status = 429)
    (hok : resp.ok = true)
    (hjson : resp.jsonBody = some data)
    (hmem : Json.getFieldE data "hydra:member" = Except.ok (some (Json.arr elems)))
    (hfil : filterActive elems = Except.ok l)
    (hlen : l.length > 0) :
    getAvailableDomains env n = (Except.ok l, n + 2,
      [Event.fetch ⟨stratAUrl (env.time n), defaultOpts⟩ (some resp)]) := by
  unfold getAvailableDomains gadBody
  refine tryCatch_ok ?_
  rw [bind_run_of_ok_nil (dateNow_run env n)]
  have hsf := smartFetch_direct hnet h403 h429
  have hparse : (if resp.ok then strategyParse resp else (pure [] : M (List Json))) env (n + 2) =
      (Except.ok l, n + 2, []) := by
    rw [if_pos hok, strategyParse_run_arr hjson hmem env (n + 2), hfil]
  have h2 : (M.bind (if resp.ok then strategyParse resp else pure []) fun firstActive =>
      if firstActive.length > 0 then (pure firstActive : M (List Json))
      else M.bind M.dateNow fun t2 =>
        M.bind (smartFetch (stratBUrl t2) defaultOpts) fun res2 =>
          if res2.ok then strategyParse res2 else pure []) env (n + 2) =
      (Except.ok l, n + 2, []) := by
    rw [bind_run_of_ok_nil hparse]
    simp only [if_pos hlen]
    exact pure_run _ env (n + 2)
  have h3 := bind_ok (k := fun res =>
    M.bind (if res.ok then strategyParse res else pure []) fun firstActive =>
      if firstActive.length > 0 then (pure firstActive : M (List Json))
      else M.bind M.dateNow fun t2 =>
        M.bind (smartFetch (stratBUrl t2) defaultOpts) fun res2 =>
          if res2.ok then strategyParse res2 else pure []) hsf h2
  simpa using h3

/-! ## Runs of the domain retry loop and domain resolution -/
lemma domainRetryLoop_succ_nonempty {env : Env} {n fuel : Nat} {ds : List Json} {n₁ : Nat}
    {tr₁ : List Event}
    (hg : getAvailableDomains env n = (Except.ok ds, n₁, tr₁)) (hlen : ds.length > 0) :
    domainRetryLoop (fuel + 1) env n = (Except.ok ds, n₁, tr₁) := by
  unfold domainRetryLoop
  have h2 : (fun domains : List Json =>
      if domains.length > 0 then (pure domains : M (List Json))
      else M.bind (M.sleep 500) fun _ => domainRetryLoop fuel) ds env n₁ =
      (Except.ok ds, n₁, []) := by
    simp only [if_pos hlen]
    exact pure_run _ env n₁
  have h3 := bind_ok (k := fun domains : List Json =>
    if domains.length > 0 then (pure domains : M (List Json))
    else M.bind (M.sleep 500) fun _ => domainRetryLoop fuel) hg h2
  simpa using h3

lemma domainRetryLoop_succ_empty {env : Env} {n fuel : Nat} {n₁ : Nat} {tr₁ : List Event}
    {r : Except Err (List Json)} {n' : Nat} {tr : List Event}
    (hg : getAvailableDomains env n = (Except.ok [], n₁, tr₁))
    (hrest : domainRetryLoop fuel env (n₁ + 1) = (r, n', tr)) :
    domainRetryLoop (fuel + 1) env n = (r, n', tr₁ ++ Event.sleep 500 :: tr) := by
  unfold domainRetryLoop
  have hs := bind_ok (k := fun _ : Unit => domainRetryLoop fuel) (sleep_run 500 env n₁) hrest
  have h2 : (fun domains : List Json =>
      if domains.length > 0 then (pure domains : M (List Json))
      else M.bind (M.sleep 500) fun _ => domainRetryLoop fuel) [] env n₁ =
      (r, n', Event.sleep 500 :: tr) := by
    simp only [List.length_nil, if_neg (by decide : ¬ (0 : Nat) > 0)]
    simpa using hs
  have h3 := bind_ok (k := fun domains : List Json =>
    if domains.length > 0 then (pure domains : M (List Json))
    else M.bind (M.sleep 500) fun _ => domainRetryLoop fuel) hg h2
  exact h3

lemma domainRetryLoop_inv : ∀ (fuel : Nat) {env : Env} {n n' : Nat}
    {r : Except Err (List Json)} {tr : List Event},
    domainRetryLoop fuel env n = (r, n', tr) →
    countFetches isAccountsUrl tr = 0 ∧ ∃ ds, r = Except.ok ds := by
  intro fuel
  induction fuel with
  | zero =>
    intro env n n' r tr h
    unfold domainRetryLoop at h
    rw [pure_run] at h
    simp only [Prod.mk.injEq] at h
    obtain ⟨rfl, rfl, rfl⟩ := h
    exact ⟨rfl, [], rfl⟩
  | succ rest ih =>
    intro env n n' r tr h
    unfold domainRetryLoop at h
    rcases bind_inv h with ⟨e, n₁, hg, rfl, rfl⟩ | ⟨ds, n₁, tr₁, tr₂, hg, hk, rfl⟩
    · obtain ⟨⟨ds, heq, -⟩, -⟩ := gad_run_inv hg
      cases heq
    · obtain ⟨⟨-, -, -⟩, hc1⟩ := gad_run_inv hg
      by_cases hlen : ds.length > 0
      · simp only [if_pos hlen] at hk
        rw [pure_run] at hk
        simp only [Prod.mk.injEq] at hk
        obtain ⟨rfl, rfl, rfl⟩ := hk
        exact ⟨by simpa [countFetches_append] using hc1, ds, rfl⟩
      · simp only [if_neg hlen] at hk
        rcases bind_inv hk with ⟨e, n₂, hs, rfl, rfl⟩ | ⟨u, n₂, trS, trR, hs, hrest, rfl⟩
        · rw [sleep_run] at hs
          simp at hs
        · rw [sleep_run] at hs
          simp only [Prod.mk.injEq] at hs
          obtain ⟨-, rfl, rfl⟩ := hs
          obtain ⟨hcr, ds', rfl⟩ := ih hrest
          refine ⟨?_, ds', rfl⟩
          have hsing : countFetches isAccountsUrl [Event.sleep 500] = 0 := rfl
          rw [countFetches_append, countFetches_append, hc1, hcr, hsing]

lemma resolveDomainDiscover_of_loop {env : Env} {n n₁ : Nat} {ds : List Json} {tr₁ : List Event}
    (h : domainRetryLoop 3 env n = (Except.ok ds, n₁, tr₁)) (hlen : ¬ ds.length = 0) :
    resolveDomainDiscover env n =
      (Except.ok (pickDomain ds (env.rand n₁ % ds.length)), n₁ + 1, tr₁) := by
  unfold resolveDomainDiscover
  have h2 : (fun domains : List Json =>
      if domains.length = 0 then (M.throw (Err.error noDomainsMsg) : M String)
      else M.bind (M.randFloor domains.length) fun randomIndex =>
        pure (pickDomain domains randomIndex)) ds env n₁ =
      (Except.ok (pickDomain ds (env.rand n₁ % ds.length)), n₁ + 1, []) := by
    simp only [if_neg hlen]
    exact bind_run_of_ok_nil (randFloor_run ds.length env n₁)
  have h3 := bind_ok (k := fun domains : List Json =>
    if domains.length = 0 then (M.throw (Err.error noDomainsMsg) : M String)
    else M.bind (M.randFloor domains.length) fun randomIndex =>
      pure (pickDomain domains randomIndex)) h h2
  simpa using h3

lemma resolveDomainDiscover_of_loop_empty {env : Env} {n n₁ : Nat} {tr₁ : List Event}
    (h : domainRetryLoop 3 env n = (Except.ok [], n₁, tr₁)) :
    resolveDomainDiscover env n = (Except.error (Err.error noDomainsMsg), n₁, tr₁) := by
  unfold resolveDomainDiscover
  have h2 : (fun domains : List Json =>
      if domains.length = 0 then (M.throw (Err.error noDomainsMsg) : M String)
      else M.bind (M.randFloor domains.length) fun randomIndex =>
        pure (pickDomain domains randomIndex)) [] env n₁ =
      (Except.error (Err.error noDomainsMsg), n₁, []) := by
    simp only [List.length_nil, if_pos rfl]
    exact throw_run _ env n₁
  have h3 := bind_ok (k := fun domains : List Json =>
    if domains.length = 0 then (M.throw (Err.error noDomainsMsg) : M String)
    else M.bind (M.randFloor domains.length) fun randomIndex =>
      pure (pickDomain domains randomIndex)) h h2
  simpa using h3

lemma resolveDomainDiscover_inv {env : Env} {n n' : Nat} {r : Except Err String}
    {tr : List Event} (h : resolveDomainDiscover env n = (r, n', tr)) :
    countFetches isAccountsUrl tr = 0 := by
  unfold resolveDomainDiscover at h
  rcases bind_inv h with ⟨e, n₁, hg, rfl, rfl⟩ | ⟨ds, n₁, tr₁, tr₂, hg, hk, rfl⟩
  · obtain ⟨-, ds, heq⟩ := domainRetryLoop_inv 3 hg
    cases heq
  · obtain ⟨hc1, -⟩ := domainRetryLoop_inv 3 hg
    by_cases hlen : ds.length = 0
    · simp only [if_pos hlen] at hk
      rw [throw_run] at hk
      simp only [Prod.mk.injEq] at hk
      obtain ⟨-, -, rfl⟩ := hk
      simpa [countFetches_append] using hc1
    · simp only [if_neg hlen] at hk
      rw [bind_run_of_ok_nil (randFloor_run ds.length env n₁)] at hk
      rw [pure_run] at hk
      simp only [Prod.mk.injEq] at hk
      obtain ⟨-, -, rfl⟩ := hk
      simpa [countFetches_append] using hc1

lemma resolveDomain_some {env : Env} {n : Nat} {d : String} (hd : ¬ d = "") :
    resolveDomain (some d) env n = (Except.ok d, n, []) := by
  show (if d = "" then resolveDomainDiscover else pure d) env n = (Except.ok d, n, [])
  rw [if_neg hd]
  exact pure_run d env n

lemma resolveDomain_inv {cd : Option String} {env : Env} {n n' : Nat} {r : Except Err String}
    {tr : List Event} (h : resolveDomain cd env n = (r, n', tr)) :
    countFetches isAccountsUrl tr = 0 := by
  cases cd with
  | none => exact resolveDomainDiscover_inv h
  | some d =>
    by_cases hd : d = ""
    · have h2 : resolveDomain (some d) env n = resolveDomainDiscover env n := by
        show (if d = "" then resolveDomainDiscover else pure d) env n = _
        rw [if_pos hd]
      rw [h2] at h
      exact resolveDomainDiscover_inv h
    · rw [resolveDomain_some hd] at h
      simp only [Prod.mk.injEq] at h
      obtain ⟨-, -, rfl⟩ := h
      rfl

lemma usernameGen_run (isC : Bool) (u : String) (env : Env) (n : Nat) :
    ∃ user k, (if isC then (pure u : M String) else randomString 10) env n =
      (Except.ok user, n + k, []) ∧ (isC = true → user = u) := by
  cases isC with
  | false =>
    obtain ⟨s, hs⟩ := randomString_run 10 env n
    exact ⟨s, 10, hs, fun hh => Bool.noConfusion hh⟩
  | true =>
    exact ⟨u, 0, by simpa using pure_run u env n, fun _ => rfl⟩

lemma creationCont_ok {resp : Response} {isC : Bool} {addr pw : String}
    {next : M (String × String)} {env : Env} {n : Nat} (hok : resp.ok = true) :
    creationCont isC addr pw next resp env n = (Except.ok (addr, pw), n, []) := by
  unfold creationCont
  rw [if_pos hok]
  rfl

lemma creationCont_422_custom {resp : Response} {addr pw : String}
    {next : M (String × String)} {env : Env} {n : Nat}
    (hokf : resp.ok = false) (hst : resp.status = 422) :
    creationCont true addr pw next resp env n =
      (Except.error (Err.error unavailableMsg), n, []) := by
  unfold creationCont
  rw [if_neg (by simp [hokf]), if_pos hst]
  rfl

lemma creationCont_422_random {resp : Response} {addr pw : String}
    {next : M (String × String)} {env : Env} {n : Nat}
    (hokf : resp.ok = false) (hst : resp.status = 422) :
    creationCont false addr pw next resp env n = next env n := by
  unfold creationCont
  rw [if_neg (by simp [hokf]), if_pos hst]
  rfl

lemma creationCont_badstatus {resp : Response} {isC : Bool} {addr pw : String}
    {next : M (String × String)} {env : Env} {n : Nat}
    (hokf : resp.ok = false) (hst : ¬ resp.status = 422) :
    creationCont isC addr pw next resp env n =
      (Except.error (Err.error (creationFailedMsg resp.status)), n, []) := by
  unfold creationCont
  rw [if_neg (by simp [hokf]), if_neg hst]
  rw [bind_run_of_ok_nil (textM_run resp env n)]
  exact throw_run _ env n

/-- Collapse the two username/password generations at the head of a
creation attempt. -/
lemma creationStep_eq {isC : Bool} {u d user pw : String} {next : M (String × String)}
    {env : Env} {n k : Nat} {res : Except Err (String × String)} {n₂ : Nat} {tr₂ : List Event}
    (hu : (if isC then (pure u : M String) else randomString 10) env n = (Except.ok user, n + k, []))
    (hpw : randomString 12 env (n + k) = (Except.ok pw, n + k + 12, []))
    (hrest : M.bind (smartFetch accountsUrl (creationOpts (user ++ "@" ++ d) pw))
        (creationCont isC (user ++ "@" ++ d) pw next) env (n + k + 12) = (res, n₂, tr₂)) :
    creationStep isC u d next env n = (res, n₂, tr₂) := by
  unfold creationStep
  rw [bind_run_of_ok_nil hu]
  show M.bind (randomString 12) (fun password =>
    M.bind (smartFetch accountsUrl (creationOpts (user ++ "@" ++ d) password))
      (creationCont isC (user ++ "@" ++ d) password next)) env (n + k) = (res, n₂, tr₂)
  rw [bind_run_of_ok_nil hpw]
  exact hrest

lemma creationStep_422_random {env : Env} {n : Nat} {next : M (String × String)}
    {r : Except Err (String × String)} {n' : Nat} {trN : List Event}
    (h : RespondsStatus env accountsUrl 422) (u d : String)
    (hnext : next env (n + 23) = (r, n', trN)) :
    ∃ ev : Event, eventMatches isAccountsUrl ev = true ∧
      creationStep false u d next env n = (r, n', ev :: trN) := by
  obtain ⟨user, huser⟩ := randomString_run 10 env n
  obtain ⟨pw, hpw⟩ := randomString_run 12 env (n + 10)
  obtain ⟨resp, hresp, hst⟩ := h (n + 22) (creationOpts (user ++ "@" ++ d) pw)
  have h403 : ¬ resp.status = 403 := by rw [hst]; decide
  have h429 : ¬ resp.status = 429 := by rw [hst]; decide
  have hokf : resp.ok = false := Response.not_ok_of_status (by rw [hst]; decide)
  have hsf := smartFetch_direct hresp h403 h429
  have hcont : creationCont false (user ++ "@" ++ d) pw next resp env (n + 23) = (r, n', trN) := by
    rw [creationCont_422_random hokf hst]
    exact hnext
  have hchain := bind_ok (k := creationCont false (user ++ "@" ++ d) pw next) hsf hcont
  refine ⟨Event.fetch ⟨accountsUrl, creationOpts (user ++ "@" ++ d) pw⟩ (some resp),
    by simp [eventMatches, isAccountsUrl_self], ?_⟩
  exact creationStep_eq huser hpw hchain

lemma creationStep_422_custom {env : Env} {n : Nat} {f : M (String × String)}
    (h : RespondsStatus env accountsUrl 422) (u d : String) :
    ∃ ev : Event, eventMatches isAccountsUrl ev = true ∧
      creationStep true u d f env n =
        (Except.error (Err.error unavailableMsg), n + 13, [ev]) := by
  obtain ⟨pw, hpw⟩ := randomString_run 12 env n
  obtain ⟨resp, hresp, hst⟩ := h (n + 12) (creationOpts (u ++ "@" ++ d) pw)
  have h403 : ¬ resp.status = 403 := by rw [hst]; decide
  have h429 : ¬ resp.status = 429 := by rw [hst]; decide
  have hokf : resp.ok = false := Response.not_ok_of_status (by rw [hst]; decide)
  have hsf := smartFetch_direct hresp h403 h429
  have hcont : creationCont true (u ++ "@" ++ d) pw f resp env (n + 13) =
      (Except.error (Err.error unavailableMsg), n + 13, []) :=
    creationCont_422_custom hokf hst
  have hchain := bind_ok (k := creationCont true (u ++ "@" ++ d) pw f) hsf hcont
  refine ⟨Event.fetch ⟨accountsUrl, creationOpts (u ++ "@" ++ d) pw⟩ (some resp),
    by simp [eventMatches, isAccountsUrl_self], ?_⟩
  have := creationStep_eq (k := 0) (by simpa using pure_run u env n) hpw hchain
  simpa using this

lemma creationStep_badstatus {env : Env} {n : Nat} {f : M (String × String)} {s : Nat}
    (h : RespondsStatus env accountsUrl s)
    (hbad : ¬ (200 ≤ s ∧ s < 300)) (h422 : ¬ s = 422) (h403 : ¬ s = 403) (h429 : ¬ s = 429)
    (u d : String) :
    ∃ ev : Event, eventMatches isAccountsUrl ev = true ∧
      creationStep false u d f env n =
        (Except.error (Err.error (creationFailedMsg s)), n + 23, [ev]) := by
  obtain ⟨user, huser⟩ := randomString_run 10 env n
  obtain ⟨pw, hpw⟩ := randomString_run 12 env (n + 10)
  obtain ⟨resp, hresp, hst⟩ := h (n + 22) (creationOpts (user ++ "@" ++ d) pw)
  have h403r : ¬ resp.status = 403 := by rw [hst]; exact h403
  have h429r : ¬ resp.status = 429 := by rw [hst]; exact h429
  have h422r : ¬ resp.status = 422 := by rw [hst]; exact h422
  have hokf : resp.ok = false := Response.not_ok_of_status (by rw [hst]; exact hbad)
  have hsf := smartFetch_direct hresp h403r h429r
  have hcont : creationCont false (user ++ "@" ++ d) pw f resp env (n + 23) =
      (Except.error (Err.error (creationFailedMsg resp.status)), n + 23, []) :=
    creationCont_badstatus hokf h422r
  rw [hst] at hcont
  have hchain := bind_ok (k := creationCont false (user ++ "@" ++ d) pw f) hsf hcont
  refine ⟨Event.fetch ⟨accountsUrl, creationOpts (user ++ "@" ++ d) pw⟩ (some resp),
    by simp [eventMatches, isAccountsUrl_self], ?_⟩
  exact creationStep_eq huser hpw hchain

lemma creationStep_ok (isC : Bool) {env : Env} {n : Nat} {f : M (String × String)} {resp : Response}
    (h : RespondsWith env accountsUrl resp) (hok : resp.ok = true)
    (u d : String) :
    ∃ user pw k, (isC = true → user = u) ∧
      creationStep isC u d f env n = (Except.ok (user ++ "@" ++ d, pw), n + k + 13,
        [Event.fetch ⟨accountsUrl, creationOpts (user ++ "@" ++ d) pw⟩ (some resp)]) := by
  obtain ⟨user, k, huser, hcu⟩ := usernameGen_run isC u env n
  obtain ⟨pw, hpw⟩ := randomString_run 12 env (n + k)
  obtain ⟨h200, h300⟩ := Response.status_bounds_of_ok hok
  have h403 : ¬ resp.status = 403 := by omega
  have h429 : ¬ resp.status = 429 := by omega
  have hresp := h (n + k + 12) (creationOpts (user ++ "@" ++ d) pw)
  have hsf := smartFetch_direct hresp h403 h429
  have hcont : creationCont isC (user ++ "@" ++ d) pw f resp env (n + k + 13) =
      (Except.ok (user ++ "@" ++ d, pw), n + k + 13, []) :=
    creationCont_ok hok
  have hchain := bind_ok (k := creationCont isC (user ++ "@" ++ d) pw f) hsf hcont
  refine ⟨user, pw, k, hcu, ?_⟩
  have := creationStep_eq huser hpw hchain
  simpa using this

/-- General inversion of one creation attempt: either the attempt
terminates the loop having issued exactly one creation request, or it
falls through to `next` (422 in random mode), again with exactly one
creation request of its own. -/
lemma creationStep_inv {isC : Bool} {u d : String} {next : M (String × String)}
    {env : Env} {n n' : Nat} {r : Except Err (String × String)} {tr : List Event}
    (h : creationStep isC u d next env n = (r, n', tr)) :
    countFetches isAccountsUrl tr ≤ 1 ∨
    ∃ tr₁ m trN, next env m = (r, n', trN) ∧ tr = tr₁ ++ trN ∧
      countFetches isAccountsUrl tr₁ = 1 := by
  obtain ⟨user, k, hu, -⟩ := usernameGen_run isC u env n
  obtain ⟨pw, hpw⟩ := randomString_run 12 env (n + k)
  have hE : creationStep isC u d next env n =
      M.bind (smartFetch accountsUrl (creationOpts (user ++ "@" ++ d) pw))
        (creationCont isC (user ++ "@" ++ d) pw next) env (n + k + 12) := by
    unfold creationStep
    rw [bind_run_of_ok_nil hu]
    show M.bind (randomString 12) (fun password =>
      M.bind (smartFetch accountsUrl (creationOpts (user ++ "@" ++ d) password))
        (creationCont isC (user ++ "@" ++ d) password next)) env (n + k) = _
    rw [bind_run_of_ok_nil hpw]
  rw [hE] at h
  have hproxy : ∀ t, isAccountsUrl (proxyUrlOf accountsUrl t) = false :=
    fun t => isAccountsUrl_proxy accountsUrl t
  rcases bind_inv h with ⟨e, n₁, hS, rfl, rfl⟩ | ⟨res, n₁, trS, trC, hS, hcont, rfl⟩
  · left
    have := smartFetch_countFetches hS hproxy
    simp only [isAccountsUrl_self, if_true] at this
    omega
  · have hcS := smartFetch_countFetches hS hproxy
    simp only [isAccountsUrl_self, if_true] at hcS
    by_cases hok : res.ok = true
    · left
      rw [creationCont_ok hok] at hcont
      simp only [Prod.mk.injEq] at hcont
      obtain ⟨rfl, rfl, rfl⟩ := hcont
      simp only [countFetches_append, hcS, countFetches_nil]
      omega
    · have hokf : res.ok = false := by
        cases hres : res.ok
        · rfl
        · exact absurd hres hok
      by_cases hst : res.status = 422
      · cases isC with
        | true =>
          left
          rw [creationCont_422_custom hokf hst] at hcont
          simp only [Prod.mk.injEq] at hcont
          obtain ⟨rfl, rfl, rfl⟩ := hcont
          simp only [countFetches_append, hcS, countFetches_nil]
          omega
        | false =>
          right
          rw [creationCont_422_random hokf hst] at hcont
          exact ⟨trS, n₁, trC, hcont, rfl, hcS⟩
      · left
        rw [creationCont_badstatus hokf hst] at hcont
        simp only [Prod.mk.injEq] at hcont
        obtain ⟨rfl, rfl, rfl⟩ := hcont
        simp only [countFetches_append, hcS, countFetches_nil]
        omega

/-- The first event of a creation attempt is always the direct creation
request, carrying an address of the form `user@domain`. -/
lemma creationStep_first_event (isC : Bool) (u d : String) (next : M (String × String))
    (env : Env) (n : Nat) :
    ∃ user pw out r n' tl, creationStep isC u d next env n =
      (r, n', Event.fetch ⟨accountsUrl, creationOpts (user ++ "@" ++ d) pw⟩ out :: tl) := by
  obtain ⟨user, k, hu, -⟩ := usernameGen_run isC u env n
  obtain ⟨pw, hpw⟩ := randomString_run 12 env (n + k)
  have hE : creationStep isC u d next env n =
      M.bind (smartFetch accountsUrl (creationOpts (user ++ "@" ++ d) pw))
        (creationCont isC (user ++ "@" ++ d) pw next) env (n + k + 12) := by
    unfold creationStep
    rw [bind_run_of_ok_nil hu]
    show M.bind (randomString 12) (fun password =>
      M.bind (smartFetch accountsUrl (creationOpts (user ++ "@" ++ d) password))
        (creationCont isC (user ++ "@" ++ d) password next)) env (n + k) = _
    rw [bind_run_of_ok_nil hpw]
  obtain ⟨rS, nS, trS, hS, hshape⟩ :=
    smartFetch_shape accountsUrl (creationOpts (user ++ "@" ++ d) pw) env (n + k + 12)
  cases rS with
  | error e =>
    have hb := bind_err (k := creationCont isC (user ++ "@" ++ d) pw next) hS
    rcases hshape with hs | ⟨t, pout, hs⟩
    · have hfin : creationStep isC u d next env n = (Except.error e, nS,
          Event.fetch ⟨accountsUrl, creationOpts (user ++ "@" ++ d) pw⟩
            (env.net (n + k + 12) ⟨accountsUrl, creationOpts (user ++ "@" ++ d) pw⟩) :: []) := by
        rw [hE, hb, hs]
      exact ⟨user, pw, _, _, _, _, hfin⟩
    · have hfin : creationStep isC u d next env n = (Except.error e, nS,
          Event.fetch ⟨accountsUrl, creationOpts (user ++ "@" ++ d) pw⟩
            (env.net (n + k + 12) ⟨accountsUrl, creationOpts (user ++ "@" ++ d) pw⟩) ::
            [Event.fetch ⟨proxyUrlOf accountsUrl t, creationOpts (user ++ "@" ++ d) pw⟩ pout]) := by
        rw [hE, hb, hs]
      exact ⟨user, pw, _, _, _, _, hfin⟩
  | ok res =>
    rcases hcont : creationCont isC (user ++ "@" ++ d) pw next res env nS with ⟨rC, nC, trC⟩
    have hb := bind_ok (k := creationCont isC (user ++ "@" ++ d) pw next) hS hcont
    rcases hshape with hs | ⟨t, pout, hs⟩
    · have hfin : creationStep isC u d next env n = (rC, nC,
          Event.fetch ⟨accountsUrl, creationOpts (user ++ "@" ++ d) pw⟩
            (env.net (n + k + 12) ⟨accountsUrl, creationOpts (user ++ "@" ++ d) pw⟩) :: trC) := by
        rw [hE, hb, hs]
        rfl
      exact ⟨user, pw, _, _, _, _, hfin⟩
    · have hfin : creationStep isC u d next env n = (rC, nC,
          Event.fetch ⟨accountsUrl, creationOpts (user ++ "@" ++ d) pw⟩
            (env.net (n + k + 12) ⟨accountsUrl, creationOpts (user ++ "@" ++ d) pw⟩) ::
            (Event.fetch ⟨proxyUrlOf accountsUrl t, creationOpts (user ++ "@" ++ d) pw⟩ pout
              :: trC)) := by
        rw [hE, hb, hs]
        rfl
      exact ⟨user, pw, _, _, _, _, hfin⟩

/-- Exhaustion: under an environment that answers every creation request
with a 422, the random-mode loop consumes its whole budget, issuing one
creation request per attempt, and fails with the "several attempts"
error. -/
lemma creationLoop_422_random {env : Env} (h : RespondsStatus env accountsUrl 422)
    (u d : String) : ∀ (fuel n : Nat), ∃ tr,
    creationLoop false u d fuel env n =
      (Except.error (Err.error exhaustedMsg), n + 23 * fuel, tr) ∧
    countFetches isAccountsUrl tr = fuel := by
  intro fuel
  induction fuel with
  | zero =>
    intro n
    refine ⟨[], ?_, rfl⟩
    show M.throw (Err.error exhaustedMsg) env n = _
    simpa using throw_run (Err.error exhaustedMsg) env n
  | succ rest ih =>
    intro n
    obtain ⟨trR, hR, hcR⟩ := ih (n + 23)
    obtain ⟨ev, hev, hstep⟩ := creationStep_422_random h u d hR
    have harith : n + 23 + 23 * rest = n + 23 * (rest + 1) := by ring
    rw [harith] at hstep
    refine ⟨ev :: trR, hstep, ?_⟩
    simp only [countFetches, List.filter_cons_of_pos hev, List.length_cons]
    have : (List.filter (eventMatches isAccountsUrl) trR).length = rest := hcR
    omega

/-- The random-mode loop issues at most `fuel` creation requests, whatever
the environment does. -/
lemma creationLoop_count : ∀ (fuel : Nat) {isC : Bool} {u d : String} {env : Env}
    {n n' : Nat} {r : Except Err (String × String)} {tr : List Event},
    creationLoop isC u d fuel env n = (r, n', tr) →
    countFetches isAccountsUrl tr ≤ fuel := by
  intro fuel
  induction fuel with
  | zero =>
    intro isC u d env n n' r tr h
    have h2 : creationLoop isC u d 0 env n = (Except.error (Err.error exhaustedMsg), n, []) := by
      show M.throw (Err.error exhaustedMsg) env n = _
      exact throw_run _ env n
    rw [h] at h2
    simp only [Prod.mk.injEq] at h2
    obtain ⟨-, -, rfl⟩ := h2
    simp [countFetches_nil]
  | succ rest ih =>
    intro isC u d env n n' r tr h
    rcases creationStep_inv h with hc | ⟨tr₁, m, trN, hnext, rfl, hc1⟩
    · omega
    · have := ih hnext
      rw [countFetches_append, hc1]
      omega

/-! ## Runs of `finalize` -/
lemma jsonM_inv {res : Response} {env : Env} {n n' : Nat} {r : Except Err Json}
    {tr : List Event} (h : res.jsonM env n = (r, n', tr)) : n' = n ∧ tr = [] := by
  cases hj : res.jsonBody with
  | none =>
    have h2 := jsonM_run_none hj env n
    rw [h] at h2
    simp only [Prod.mk.injEq] at h2
    obtain ⟨-, rfl, rfl⟩ := h2
    exact ⟨rfl, rfl⟩
  | some j =>
    have h2 := jsonM_run_some hj env n
    rw [h] at h2
    simp only [Prod.mk.injEq] at h2
    obtain ⟨-, rfl, rfl⟩ := h2
    exact ⟨rfl, rfl⟩

lemma finalize_inv {isC : Bool} {addr pw : String} {env : Env} {n n' : Nat}
    {r : Except Err UserSession} {tr : List Event}
    (h : finalize isC addr pw env n = (r, n', tr)) :
    countFetches isAccountsUrl tr = 0 ∧
    ∀ sess, r = Except.ok sess →
      sess.emailAddress = addr ∧ sess.isPremium = isC ∧ sess.password = some pw ∧
      sess.expiresAt = (if isC then none else some (sess.createdAt + 10 * 60 * 1000)) := by
  unfold finalize at h
  rcases bind_inv h with ⟨e, n₁, hS, rfl, rfl⟩ | ⟨tokenRes, n₁, trT, trK, hS, hK, rfl⟩
  · have hc := smartFetch_countFetches hS (fun t => isAccountsUrl_proxy _ t)
    simp only [isAccountsUrl_token, if_false] at hc
    refine ⟨hc, ?_⟩
    rintro sess hss
    cases hss
  · have hcT := smartFetch_countFetches hS (fun t => isAccountsUrl_proxy _ t)
    simp only [isAccountsUrl_token, if_false] at hcT
    cases htokOk : tokenRes.ok with
    | false =>
      have hcond : (!tokenRes.ok) = true := by simp [htokOk]
      rw [if_pos hcond] at hK
      rw [throw_run] at hK
      simp only [Prod.mk.injEq] at hK
      obtain ⟨rfl, rfl, rfl⟩ := hK
      refine ⟨by simpa [countFetches_append] using hcT, ?_⟩
      rintro sess hss
      cases hss
    | true =>
      have hcond : ¬ ((!tokenRes.ok) = true) := by simp [htokOk]
      rw [if_neg hcond] at hK
      rcases bind_inv hK with ⟨e, n₂, hj, rfl, rfl⟩ | ⟨tokenData, n₂, trJ, trK2, hj, hK2, rfl⟩
      · obtain ⟨-, rfl⟩ := jsonM_inv hj
        refine ⟨by simpa [countFetches_append] using hcT, ?_⟩
        rintro sess hss
        cases hss
      · obtain ⟨rfl, rfl⟩ := jsonM_inv hj
        rcases bind_inv hK2 with ⟨e, nT, hT, rfl, rfl⟩ | ⟨token, nT, trT2, trK2b, hT, hK2b, rfl⟩
        · obtain ⟨-, rfl, rfl⟩ := lift_inv hT
          refine ⟨by simpa [countFetches_append] using hcT, ?_⟩
          rintro sess hss
          cases hss
        · obtain ⟨-, rfl, rfl⟩ := lift_inv hT
          rcases bind_inv hK2b with ⟨e, n₃, hM, rfl, rfl⟩ | ⟨meRes, n₃, trM, trK3, hM, hK3, rfl⟩
          · have hcM := smartFetch_countFetches hM (fun t => isAccountsUrl_proxy _ t)
            simp only [isAccountsUrl_me, if_false] at hcM
            refine ⟨by simp [countFetches_append, hcT, hcM], ?_⟩
            rintro sess hss
            cases hss
          · have hcM := smartFetch_countFetches hM (fun t => isAccountsUrl_proxy _ t)
            simp only [isAccountsUrl_me, if_false] at hcM
            rcases bind_inv hK3 with ⟨e, n₄, hj2, rfl, rfl⟩ |
              ⟨meData, n₄, trJ2, trK4, hj2, hK4, rfl⟩
            · obtain ⟨-, rfl⟩ := jsonM_inv hj2
              refine ⟨by simp [countFetches_append, hcT, hcM], ?_⟩
              rintro sess hss
              cases hss
            · obtain ⟨rfl, rfl⟩ := jsonM_inv hj2
              rw [bind_run_of_ok_nil (dateNow_run env _)] at hK4
              rcases bind_inv hK4 with ⟨e, n₅, hI, rfl, rfl⟩ |
                ⟨accountId, n₅, trI, trK5, hI, hK5, rfl⟩
              · obtain ⟨-, rfl, rfl⟩ := lift_inv hI
                refine ⟨by simp [countFetches_append, hcT, hcM], ?_⟩
                rintro sess hss
                cases hss
              · obtain ⟨-, rfl, rfl⟩ := lift_inv hI
                rw [pure_run] at hK5
                simp only [Prod.mk.injEq] at hK5
                obtain ⟨rfl, rfl, rfl⟩ := hK5
                refine ⟨by simp [countFetches_append, hcT, hcM], ?_⟩
                rintro sess hss
                injection hss with hss
                subst hss
                refine ⟨rfl, rfl, rfl, ?_⟩
                simp [mkSession]

/-- Forward run of `finalize` under fixed token and `/me` responses: with
a token body parsing to a non-null value, the `/me` status is never
inspected and the session is assembled from whatever JSON the `/me` body
held — unless that body fails to parse (the propagated parse error) or
parses to `null`, where reading `meData.id` throws a `TypeError`. -/
lemma finalize_run (isC : Bool) (addr pw : String) {env : Env} (n : Nat)
    {tokenRes meRes : Response} {tokenData : Json}
    (htok : RespondsWith env tokenUrl tokenRes) (htokOk : tokenRes.ok = true)
    (htokJson : tokenRes.jsonBody = some tokenData) (htokNN : ¬ tokenData = Json.null)
    (hme : RespondsWith env meUrl meRes)
    (h403 : ¬ meRes.status = 403) (h429 : ¬ meRes.status = 429) :
    (∀ meData, meRes.jsonBody = some meData → ¬ meData = Json.null →
      finalize isC addr pw env n = (Except.ok (mkSession isC addr pw
          (Json.getField tokenData "token") (Json.getField meData "id") (env.time (n + 2))),
        n + 3,
        [Event.fetch ⟨tokenUrl, creationOpts addr pw⟩ (some tokenRes),
         Event.fetch ⟨meUrl, meOpts (Json.getField tokenData "token")⟩ (some meRes)])) ∧
    (meRes.jsonBody = some Json.null →
      finalize isC addr pw env n = (Except.error Err.typeError, n + 3,
        [Event.fetch ⟨tokenUrl, creationOpts addr pw⟩ (some tokenRes),
         Event.fetch ⟨meUrl, meOpts (Json.getField tokenData "token")⟩ (some meRes)])) ∧
    (meRes.jsonBody = none →
      finalize isC addr pw env n = (Except.error Err.jsonParse, n + 2,
        [Event.fetch ⟨tokenUrl, creationOpts addr pw⟩ (some tokenRes),
         Event.fetch ⟨meUrl, meOpts (Json.getField tokenData "token")⟩ (some meRes)])) := by
  obtain ⟨ht200, ht300⟩ := Response.status_bounds_of_ok htokOk
  have ht403 : ¬ tokenRes.status = 403 := by omega
  have ht429 : ¬ tokenRes.status = 429 := by omega
  have hsfT := smartFetch_direct
    (htok n (creationOpts addr pw)) ht403 ht429
  have hsfM := smartFetch_direct
    (hme (n + 1) (meOpts (Json.getField tokenData "token"))) h403 h429
  have hcond : ¬ ((!tokenRes.ok) = true) := by simp [htokOk]
  have hLtok : M.lift (Json.getFieldE tokenData "token") env (n + 1) =
      (Except.ok (Json.getField tokenData "token"), n + 1, []) := by
    rw [getFieldE_of_ne_null htokNN]
    rfl
  refine ⟨?_, ?_, ?_⟩
  · intro meData hmeJson hmeNN
    have hLid : M.lift (Json.getFieldE meData "id") env (n + 3) =
        (Except.ok (Json.getField meData "id"), n + 3, []) := by
      rw [getFieldE_of_ne_null hmeNN]
      rfl
    have h6 : (M.bind (M.lift (Json.getFieldE meData "id")) fun accountId =>
        (pure (mkSession isC addr pw (Json.getField tokenData "token") accountId
          (env.time (n + 2))) : M UserSession)) env (n + 3) =
        (Except.ok (mkSession isC addr pw (Json.getField tokenData "token")
          (Json.getField meData "id") (env.time (n + 2))), n + 3, []) := by
      rw [bind_run_of_ok_nil hLid]
      exact pure_run _ env (n + 3)
    have h5 : (M.bind M.dateNow fun now =>
        M.bind (M.lift (Json.getFieldE meData "id")) fun accountId =>
        (pure (mkSession isC addr pw (Json.getField tokenData "token") accountId now)
          : M UserSession)) env (n + 2) =
        (Except.ok (mkSession isC addr pw (Json.getField tokenData "token")
          (Json.getField meData "id") (env.time (n + 2))), n + 3, []) := by
      rw [bind_run_of_ok_nil (dateNow_run env (n + 2))]
      exact h6
    have h4 : (M.bind meRes.jsonM fun meData =>
        M.bind M.dateNow fun now =>
        M.bind (M.lift (Json.getFieldE meData "id")) fun accountId =>
        (pure (mkSession isC addr pw (Json.getField tokenData "token") accountId now)
          : M UserSession)) env (n + 2) =
        (Except.ok (mkSession isC addr pw (Json.getField tokenData "token")
          (Json.getField meData "id") (env.time (n + 2))), n + 3, []) := by
      rw [bind_run_of_ok_nil (jsonM_run_some hmeJson env (n + 2))]
      exact h5
    have h3 := bind_ok (k := fun meRes =>
      M.bind meRes.jsonM fun meData =>
      M.bind M.dateNow fun now =>
      M.bind (M.lift (Json.getFieldE meData "id")) fun accountId =>
      (pure (mkSession isC addr pw (Json.getField tokenData "token") accountId now)
        : M UserSession)) hsfM h4
    have h2 : (M.bind (M.lift (Json.getFieldE tokenData "token")) fun token =>
        M.bind (smartFetch meUrl (meOpts token)) fun meRes =>
        M.bind meRes.jsonM fun meData =>
        M.bind M.dateNow fun now =>
        M.bind (M.lift (Json.getFieldE meData "id")) fun accountId =>
        (pure (mkSession isC addr pw token accountId now) : M UserSession)) env (n + 1) =
        (Except.ok (mkSession isC addr pw (Json.getField tokenData "token")
          (Json.getField meData "id") (env.time (n + 2))), n + 3,
         [Event.fetch ⟨meUrl, meOpts (Json.getField tokenData "token")⟩ (some meRes)]) := by
      rw [bind_run_of_ok_nil hLtok]
      simpa using h3
    have h1 : (if !tokenRes.ok then (M.throw (Err.error loginFailedMsg) : M UserSession)
        else M.bind tokenRes.jsonM fun tokenData =>
          M.bind (M.lift (Json.getFieldE tokenData "token")) fun token =>
          M.bind (smartFetch meUrl (meOpts token)) fun meRes =>
          M.bind meRes.jsonM fun meData =>
          M.bind M.dateNow fun now =>
          M.bind (M.lift (Json.getFieldE meData "id")) fun accountId =>
          pure (mkSession isC addr pw token accountId now)) env (n + 1) =
        (Except.ok (mkSession isC addr pw (Json.getField tokenData "token")
          (Json.getField meData "id") (env.time (n + 2))), n + 3,
         [Event.fetch ⟨meUrl, meOpts (Json.getField tokenData "token")⟩ (some meRes)]) := by
      rw [if_neg hcond]
      rw [bind_run_of_ok_nil (jsonM_run_some htokJson env (n + 1))]
      exact h2
    have hfin := bind_ok (k := fun tokenRes =>
      if !tokenRes.ok then (M.throw (Err.error loginFailedMsg) : M UserSession)
      else M.bind tokenRes.jsonM fun tokenData =>
        M.bind (M.lift (Json.getFieldE tokenData "token")) fun token =>
        M.bind (smartFetch meUrl (meOpts token)) fun meRes =>
        M.bind meRes.jsonM fun meData =>
        M.bind M.dateNow fun now =>
        M.bind (M.lift (Json.getFieldE meData "id")) fun accountId =>
        pure (mkSession isC addr pw token accountId now)) hsfT h1
    show M.bind (smartFetch tokenUrl (creationOpts addr pw)) (fun tokenRes =>
      if !tokenRes.ok then (M.throw (Err.error loginFailedMsg) : M UserSession)
      else M.bind tokenRes.jsonM fun tokenData =>
        M.bind (M.lift (Json.getFieldE tokenData "token")) fun token =>
        M.bind (smartFetch meUrl (meOpts token)) fun meRes =>
        M.bind meRes.jsonM fun meData =>
        M.bind M.dateNow fun now =>
        M.bind (M.lift (Json.getFieldE meData "id")) fun accountId =>
        pure (mkSession isC addr pw token accountId now)) env n = _
    simpa using hfin
  · intro hmeJson
    have h5 : (M.bind M.dateNow fun now =>
        M.bind (M.lift (Json.getFieldE Json.null "id")) fun accountId =>
        (pure (mkSession isC addr pw (Json.getField tokenData "token") accountId now)
          : M UserSession)) env (n + 2) =
        (Except.error Err.typeError, n + 3, []) := by
      rw [bind_run_of_ok_nil (dateNow_run env (n + 2))]
      rfl
    have h4 : (M.bind meRes.jsonM fun meData =>
        M.bind M.dateNow fun now =>
        M.bind (M.lift (Json.getFieldE meData "id")) fun accountId =>
        (pure (mkSession isC addr pw (Json.getField tokenData "token") accountId now)
          : M UserSession)) env (n + 2) =
        (Except.error Err.typeError, n + 3, []) := by
      rw [bind_run_of_ok_nil (jsonM_run_some hmeJson env (n + 2))]
      exact h5
    have h3 := bind_ok (k := fun meRes =>
      M.bind meRes.jsonM fun meData =>
      M.bind M.dateNow fun now =>
      M.bind (M.lift (Json.getFieldE meData "id")) fun accountId =>
      (pure (mkSession isC addr pw (Json.getField tokenData "token") accountId now)
        : M UserSession)) hsfM h4
    have h2 : (M.bind (M.lift (Json.getFieldE tokenData "token")) fun token =>
        M.bind (smartFetch meUrl (meOpts token)) fun meRes =>
        M.bind meRes.jsonM fun meData =>
        M.bind M.dateNow fun now =>
        M.bind (M.lift (Json.getFieldE meData "id")) fun accountId =>
        (pure (mkSession isC addr pw token accountId now) : M UserSession)) env (n + 1) =
        (Except.error Err.typeError, n + 3,
         [Event.fetch ⟨meUrl, meOpts (Json.getField tokenData "token")⟩ (some meRes)]) := by
      rw [bind_run_of_ok_nil hLtok]
      simpa using h3
    have h1 : (if !tokenRes.ok then (M.throw (Err.error loginFailedMsg) : M UserSession)
        else M.bind tokenRes.jsonM fun tokenData =>
          M.bind (M.lift (Json.getFieldE tokenData "token")) fun token =>
          M.bind (smartFetch meUrl (meOpts token)) fun meRes =>
          M.bind meRes.jsonM fun meData =>
          M.bind M.dateNow fun now =>
          M.bind (M.lift (Json.getFieldE meData "id")) fun accountId =>
          pure (mkSession isC addr pw token accountId now)) env (n + 1) =
        (Except.error Err.typeError, n + 3,
         [Event.fetch ⟨meUrl, meOpts (Json.getField tokenData "token")⟩ (some meRes)]) := by
      rw [if_neg hcond]
      rw [bind_run_of_ok_nil (jsonM_run_some htokJson env (n + 1))]
      exact h2
    have hfin := bind_ok (k := fun tokenRes =>
      if !tokenRes.ok then (M.throw (Err.error loginFailedMsg) : M UserSession)
      else M.bind tokenRes.jsonM fun tokenData =>
        M.bind (M.lift (Json.getFieldE tokenData "token")) fun token =>
        M.bind (smartFetch meUrl (meOpts token)) fun meRes =>
        M.bind meRes.jsonM fun meData =>
        M.bind M.dateNow fun now =>
        M.bind (M.lift (Json.getFieldE meData "id")) fun accountId =>
        pure (mkSession isC addr pw token accountId now)) hsfT h1
    show M.bind (smartFetch tokenUrl (creationOpts addr pw)) (fun tokenRes =>
      if !tokenRes.ok then (M.throw (Err.error loginFailedMsg) : M UserSession)
      else M.bind tokenRes.jsonM fun tokenData =>
        M.bind (M.lift (Json.getFieldE tokenData "token")) fun token =>
        M.bind (smartFetch meUrl (meOpts token)) fun meRes =>
        M.bind meRes.jsonM fun meData =>
        M.bind M.dateNow fun now =>
        M.bind (M.lift (Json.getFieldE meData "id")) fun accountId =>
        pure (mkSession isC addr pw token accountId now)) env n = _
    simpa using hfin
  · intro hmeJson
    have h4 : (M.bind meRes.jsonM fun meData =>
        M.bind M.dateNow fun now =>
        M.bind (M.lift (Json.getFieldE meData "id")) fun accountId =>
        (pure (mkSession isC addr pw (Json.getField tokenData "token") accountId now)
          : M UserSession)) env (n + 2) =
        (Except.error Err.jsonParse, n + 2, []) :=
      bind_err (jsonM_run_none hmeJson env (n + 2))
    have h3 := bind_ok (k := fun meRes =>
      M.bind meRes.jsonM fun meData =>
      M.bind M.dateNow fun now =>
      M.bind (M.lift (Json.getFieldE meData "id")) fun accountId =>
      (pure (mkSession isC addr pw (Json.getField tokenData "token") accountId now)
        : M UserSession)) hsfM h4
    have h2 : (M.bind (M.lift (Json.getFieldE tokenData "token")) fun token =>
        M.bind (smartFetch meUrl (meOpts token)) fun meRes =>
        M.bind meRes.jsonM fun meData =>
        M.bind M.dateNow fun now =>
        M.bind (M.lift (Json.getFieldE meData "id")) fun accountId =>
        (pure (mkSession isC addr pw token accountId now) : M UserSession)) env (n + 1) =
        (Except.error Err.jsonParse, n + 2,
         [Event.fetch ⟨meUrl, meOpts (Json.getField tokenData "token")⟩ (some meRes)]) := by
      rw [bind_run_of_ok_nil hLtok]
      simpa using h3
    have h1 : (if !tokenRes.ok then (M.throw (Err.error loginFailedMsg) : M UserSession)
        else M.bind tokenRes.jsonM fun tokenData =>
          M.bind (M.lift (Json.getFieldE tokenData "token")) fun token =>
          M.bind (smartFetch meUrl (meOpts token)) fun meRes =>
          M.bind meRes.jsonM fun meData =>
          M.bind M.dateNow fun now =>
          M.bind (M.lift (Json.getFieldE meData "id")) fun accountId =>
          pure (mkSession isC addr pw token accountId now)) env (n + 1) =
        (Except.error Err.jsonParse, n + 2,
         [Event.fetch ⟨meUrl, meOpts (Json.getField tokenData "token")⟩ (some meRes)]) := by
      rw [if_neg hcond]
      rw [bind_run_of_ok_nil (jsonM_run_some htokJson env (n + 1))]
      exact h2
    have hfin := bind_ok (k := fun tokenRes =>
      if !tokenRes.ok then (M.throw (Err.error loginFailedMsg) : M UserSession)
      else M.bind tokenRes.jsonM fun tokenData =>
        M.bind (M.lift (Json.getFieldE tokenData "token")) fun token =>
        M.bind (smartFetch meUrl (meOpts token)) fun meRes =>
        M.bind meRes.jsonM fun meData =>
        M.bind M.dateNow fun now =>
        M.bind (M.lift (Json.getFieldE meData "id")) fun accountId =>
        pure (mkSession isC addr pw token accountId now)) hsfT h1
    show M.bind (smartFetch tokenUrl (creationOpts addr pw)) (fun tokenRes =>
      if !tokenRes.ok then (M.throw (Err.error loginFailedMsg) : M UserSession)
      else M.bind tokenRes.jsonM fun tokenData =>
        M.bind (M.lift (Json.getFieldE tokenData "token")) fun token =>
        M.bind (smartFetch meUrl (meOpts token)) fun meRes =>
        M.bind meRes.jsonM fun meData =>
        M.bind M.dateNow fun now =>
        M.bind (M.lift (Json.getFieldE meData "id")) fun accountId =>
        pure (mkSession isC addr pw token accountId now)) env n = _
    simpa using hfin

/-! ## Runs of `createRealAccount` -/
/-- Composition when the creation loop throws: the outer catch logs and
rethrows, leaving result and trace unchanged. -/
lemma createRealAccount_compose_err {cu cd : Option String} {env : Env} {n : Nat}
    {dom : String} {n₁ : Nat} {trD : List Event} {e : Err} {n₂ : Nat} {trL : List Event}
    (hD : resolveDomain cd env n = (Except.ok dom, n₁, trD))
    (hL : creationLoop (optStrTruthy cu) (cu.getD "") dom
        (if optStrTruthy cu then 1 else 5) env n₁ = (Except.error e, n₂, trL)) :
    createRealAccount cu cd env n = (Except.error e, n₂, trD ++ trL) := by
  unfold createRealAccount
  have hbody := bind_ok (k := fun domain =>
    M.bind (creationLoop (optStrTruthy cu) (cu.getD "") domain
      (if optStrTruthy cu then 1 else 5)) fun ap =>
        finalize (optStrTruthy cu) ap.1 ap.2)
    hD (bind_err (k := fun ap => finalize (optStrTruthy cu) ap.1 ap.2) hL)
  have hfin := tryCatch_err (g := fun e => (M.throw e : M UserSession))
    hbody (throw_run e env n₂)
  simpa using hfin

/-- Composition when the creation loop succeeds: the run continues into
`finalize`, and an error there is rethrown unchanged by the outer catch. -/
lemma createRealAccount_compose {cu cd : Option String} {env : Env} {n : Nat}
    {dom : String} {n₁ : Nat} {trD : List Event} {ap : String × String} {n₂ : Nat}
    {trL : List Event} {R : Except Err UserSession} {n₃ : Nat} {trF : List Event}
    (hD : resolveDomain cd env n = (Except.ok dom, n₁, trD))
    (hL : creationLoop (optStrTruthy cu) (cu.getD "") dom
        (if optStrTruthy cu then 1 else 5) env n₁ = (Except.ok ap, n₂, trL))
    (hF : finalize (optStrTruthy cu) ap.1 ap.2 env n₂ = (R, n₃, trF)) :
    createRealAccount cu cd env n = (R, n₃, trD ++ (trL ++ trF)) := by
  unfold createRealAccount
  have hbody := bind_ok (k := fun domain =>
    M.bind (creationLoop (optStrTruthy cu) (cu.getD "") domain
      (if optStrTruthy cu then 1 else 5)) fun ap =>
        finalize (optStrTruthy cu) ap.1 ap.2)
    hD (bind_ok (k := fun ap => finalize (optStrTruthy cu) ap.1 ap.2) hL hF)
  cases R with
  | ok sess => exact tryCatch_ok hbody
  | error e =>
    have hfin := tryCatch_err (g := fun e => (M.throw e : M UserSession))
      hbody (throw_run e env n₃)
    simpa using hfin

/-- Count bound: a run of `createRealAccount` issues at most `maxRetries`
creation requests (1 in custom mode, 5 in random mode). -/
lemma createRealAccount_count {cu cd : Option String} {env : Env} {n n' : Nat}
    {r : Except Err UserSession} {tr : List Event}
    (h : createRealAccount cu cd env n = (r, n', tr)) :
    countFetches isAccountsUrl tr ≤ (if optStrTruthy cu then 1 else 5) := by
  unfold createRealAccount at h
  have hbound : ∀ {nb n₂ : Nat} {rb : Except Err UserSession} {trb : List Event},
      (M.bind (resolveDomain cd) fun domain =>
        M.bind (creationLoop (optStrTruthy cu) (cu.getD "") domain
          (if optStrTruthy cu then 1 else 5)) fun ap =>
          finalize (optStrTruthy cu) ap.1 ap.2) env nb = (rb, n₂, trb) →
      countFetches isAccountsUrl trb ≤ (if optStrTruthy cu then 1 else 5) := by
    intro nb n₂ rb trb hb
    rcases bind_inv hb with ⟨e, n₁, hD, rfl, rfl⟩ | ⟨dom, n₁, trD, trK, hD, hK, rfl⟩
    · rw [resolveDomain_inv hD]
      omega
    · have hcD := resolveDomain_inv hD
      rcases bind_inv hK with ⟨e, nL, hL, rfl, rfl⟩ | ⟨ap, nL, trL, trF, hL, hF, rfl⟩
      · have hcL := creationLoop_count _ hL
        rw [countFetches_append, hcD]
        omega
      · have hcL := creationLoop_count _ hL
        obtain ⟨hcF, -⟩ := finalize_inv hF
        rw [countFetches_append, countFetches_append, hcD, hcF]
        omega
  rcases tryCatch_inv h with ⟨hbody, -⟩ | ⟨e, n₁, tr₁, tr₂, hbody, hhandler, rfl⟩
  · exact hbound hbody
  · have h2 := hhandler.symm.trans
      (rfl : (fun e => (M.throw e : M UserSession)) e env n₁ = (Except.error e, n₁, []))
    simp only [Prod.mk.injEq] at h2
    obtain ⟨-, -, rfl⟩ := h2
    have := hbound hbody
    simpa [countFetches_append] using this

/-- Field discipline of every successfully returned session. -/
lemma createRealAccount_ok_inv {cu cd : Option String} {env : Env} {n n' : Nat}
    {sess : UserSession} {tr : List Event}
    (h : createRealAccount cu cd env n = (Except.ok sess, n', tr)) :
    sess.isPremium = optStrTruthy cu ∧
    sess.expiresAt = (if optStrTruthy cu then none
      else some (sess.createdAt + 10 * 60 * 1000)) := by
  unfold createRealAccount at h
  rcases tryCatch_inv h with ⟨hbody, -⟩ | ⟨e, n₁, tr₁, tr₂, hbody, hhandler, rfl⟩
  · rcases bind_inv hbody with ⟨e, n₁, hD, heq, rfl⟩ | ⟨dom, n₁, trD, trK, hD, hK, rfl⟩
    · cases heq
    · rcases bind_inv hK with ⟨e, nL, hL, heq, rfl⟩ | ⟨ap, nL, trL, trF, hL, hF, rfl⟩
      · cases heq
      · obtain ⟨-, hfields⟩ := finalize_inv hF
        obtain ⟨-, hprem, -, hexp⟩ := hfields sess rfl
        exact ⟨hprem, hexp⟩
  · rw [throw_run] at hhandler
    simp at hhandler

/-! ## Runs of `fetchMessageDetails` and `deleteMessage` -/
/-- A try/catch whose handler returns a pure value never throws. -/
lemma tryCatch_pure_handler_ok {α : Type} (body : M α) (v : α) (env : Env) (n : Nat) :
    ∃ a n' tr, M.tryCatch body (fun _ => pure v) env n = (Except.ok a, n', tr) := by
  rcases hb : body env n with ⟨r, n₁, tr₁⟩
  cases r with
  | ok a => exact ⟨a, n₁, tr₁, tryCatch_ok hb⟩
  | error e => exact ⟨v, n₁, tr₁ ++ [], tryCatch_err hb (pure_run v env n₁)⟩

lemma resolveBody_html_arr {data : Json} {elems : List Json}
    (hmem : Json.getField data "html" = some (Json.arr elems)) (hlen : elems.length > 0) :
    resolveBody data = String.join (elems.map jsStrElem) := by
  unfold resolveBody
  rw [hmem]
  show (if elems.length > 0 then String.join (elems.map jsStrElem)
    else resolveBody.textFallback data) = _
  rw [if_pos hlen]

lemma resolveBody_html_str {data : Json} {s : String}
    (hmem : Json.getField data "html" = some (Json.str s)) (hlen : s.length > 0) :
    resolveBody data = s := by
  unfold resolveBody
  rw [hmem]
  show (if s.length > 0 then s else resolveBody.textFallback data) = _
  rw [if_pos hlen]

lemma resolveBody_text {data : Json} {t : Json}
    (hh : Json.getField data "html" = none) (ht : Json.getField data "text" = some t)
    (htr : t.truthy = true) :
    resolveBody data = t.jsStr := by
  unfold resolveBody
  rw [hh]
  show resolveBody.textFallback data = _
  unfold resolveBody.textFallback
  rw [ht]
  show (if t.truthy then t.jsStr else "No content") = _
  rw [if_pos htr]

lemma resolveBody_sentinel {data : Json}
    (hh : Json.getField data "html" = none) (ht : Json.getField data "text" = none) :
    resolveBody data = "No content" := by
  unfold resolveBody
  rw [hh]
  show resolveBody.textFallback data = _
  unfold resolveBody.textFallback
  rw [ht]

/-- Evaluating the ladder on a non-null parsed body. -/
lemma resolveBodyE_of_ne_null {data : Json} (h : ¬ data = Json.null) :
    resolveBodyE data = Except.ok (resolveBody data) := by
  cases data with
  | null => exact absurd rfl h
  | str s => rfl
  | num m => rfl
  | bool b => rfl
  | arr elems => rfl
  | obj fields => rfl

/-- Forward run of `fetchMessageDetails` on a resolved direct response: a
non-null parsed body yields the ladder result, a `null` parsed body (whose
`data.html` access throws) and an unparseable body both yield `none`. -/
lemma fetchMessageDetails_run {token messageId : String} {env : Env} {n : Nat} {resp : Response}
    (hnet : env.net n ⟨API_BASE ++ "/messages/" ++ messageId, msgOpts token⟩ = some resp)
    (h403 : ¬ resp.status = 403) (h429 : ¬ resp.status = 429) :
    (∀ data, resp.jsonBody = some data → ¬ data = Json.null →
      fetchMessageDetails token messageId env n =
        (Except.ok (some { body := resolveBody data, hasFullDetails := true }), n + 1,
         [Event.fetch ⟨API_BASE ++ "/messages/" ++ messageId, msgOpts token⟩ (some resp)])) ∧
    (resp.jsonBody = some Json.null →
      fetchMessageDetails token messageId env n =
        (Except.ok none, n + 1,
         [Event.fetch ⟨API_BASE ++ "/messages/" ++ messageId, msgOpts token⟩ (some resp)])) ∧
    (resp.jsonBody = none →
      fetchMessageDetails token messageId env n =
        (Except.ok none, n + 1,
         [Event.fetch ⟨API_BASE ++ "/messages/" ++ messageId, msgOpts token⟩ (some resp)])) := by
  have hsf := smartFetch_direct hnet h403 h429
  refine ⟨?_, ?_, ?_⟩
  · intro data hdata hnn
    have hL : M.lift (resolveBodyE data) env (n + 1) =
        (Except.ok (resolveBody data), n + 1, []) := by
      rw [resolveBodyE_of_ne_null hnn]
      rfl
    have hK : (M.bind resp.jsonM fun data =>
        M.bind (M.lift (resolveBodyE data)) fun bodyContent =>
        (pure (some { body := bodyContent, hasFullDetails := true })
          : M (Option MessageDetailPartial))) env (n + 1) =
        (Except.ok (some { body := resolveBody data, hasFullDetails := true }), n + 1, []) := by
      rw [bind_run_of_ok_nil (jsonM_run_some hdata env (n + 1))]
      show (M.bind (M.lift (resolveBodyE data)) fun bodyContent =>
        (pure (some { body := bodyContent, hasFullDetails := true })
          : M (Option MessageDetailPartial))) env (n + 1) = _
      rw [bind_run_of_ok_nil hL]
      exact pure_run _ env (n + 1)
    have hbody := bind_ok (k := fun res => M.bind res.jsonM fun data =>
      M.bind (M.lift (resolveBodyE data)) fun bodyContent =>
      (pure (some { body := bodyContent, hasFullDetails := true })
        : M (Option MessageDetailPartial))) hsf hK
    unfold fetchMessageDetails
    have := tryCatch_ok (g := fun _ =>
      (pure none : M (Option MessageDetailPartial))) hbody
    simpa using this
  · intro hdata
    have hK : (M.bind resp.jsonM fun data =>
        M.bind (M.lift (resolveBodyE data)) fun bodyContent =>
        (pure (some { body := bodyContent, hasFullDetails := true })
          : M (Option MessageDetailPartial))) env (n + 1) =
        (Except.error Err.typeError, n + 1, []) := by
      rw [bind_run_of_ok_nil (jsonM_run_some hdata env (n + 1))]
      rfl
    have hbody := bind_ok (k := fun res => M.bind res.jsonM fun data =>
      M.bind (M.lift (resolveBodyE data)) fun bodyContent =>
      (pure (some { body := bodyContent, hasFullDetails := true })
        : M (Option MessageDetailPartial))) hsf hK
    unfold fetchMessageDetails
    have := tryCatch_err (g := fun _ =>
      (pure none : M (Option MessageDetailPartial))) hbody
      (pure_run none env (n + 1))
    simpa using this
  · intro hnone
    have hK : (M.bind resp.jsonM fun data =>
        M.bind (M.lift (resolveBodyE data)) fun bodyContent =>
        (pure (some { body := bodyContent, hasFullDetails := true })
          : M (Option MessageDetailPartial))) env (n + 1) =
        (Except.error Err.jsonParse, n + 1, []) :=
      bind_err (jsonM_run_none hnone env (n + 1))
    have hbody := bind_ok (k := fun res => M.bind res.jsonM fun data =>
      M.bind (M.lift (resolveBodyE data)) fun bodyContent =>
      (pure (some { body := bodyContent, hasFullDetails := true })
        : M (Option MessageDetailPartial))) hsf hK
    unfold fetchMessageDetails
    have := tryCatch_err (g := fun _ =>
      (pure none : M (Option MessageDetailPartial))) hbody
      (pure_run none env (n + 1))
    simpa using this

/-- Forward runs of `deleteMessage`. -/
lemma deleteMessage_run (token messageId : String) (env : Env) (n : Nat) :
    (∀ resp, env.net n ⟨API_BASE ++ "/messages/" ++ messageId, deleteOpts token⟩ = some resp →
      ¬ resp.status = 403 → ¬ resp.status = 429 →
      deleteMessage token messageId env n = (Except.ok true, n + 1,
        [Event.fetch ⟨API_BASE ++ "/messages/" ++ messageId, deleteOpts token⟩ (some resp)])) ∧
    (∀ resp pout, env.net n ⟨API_BASE ++ "/messages/" ++ messageId, deleteOpts token⟩ =
        some resp →
      (resp.status = 403 ∨ resp.status = 429) →
      env.net (n + 2) ⟨proxyUrlOf (API_BASE ++ "/messages/" ++ messageId)
        (env.time (n + 1)), deleteOpts token⟩ = pout →
      deleteMessage token messageId env n =
        ((match pout with
          | some _ => Except.ok true
          | none => Except.ok false), n + 3,
         Event.fetch ⟨API_BASE ++ "/messages/" ++ messageId, deleteOpts token⟩ (some resp) ::
         Event.fetch ⟨proxyUrlOf (API_BASE ++ "/messages/" ++ messageId)
           (env.time (n + 1)), deleteOpts token⟩ pout ::
         (match pout with | some _ => [] | none => []))) ∧
    (∀ pout, env.net n ⟨API_BASE ++ "/messages/" ++ messageId, deleteOpts token⟩ = none →
      env.net (n + 2) ⟨proxyUrlOf (API_BASE ++ "/messages/" ++ messageId)
        (env.time (n + 1)), deleteOpts token⟩ = pout →
      deleteMessage token messageId env n =
        ((match pout with
          | some _ => Except.ok true
          | none => Except.ok false), n + 3,
         Event.fetch ⟨API_BASE ++ "/messages/" ++ messageId, deleteOpts token⟩ none ::
         Event.fetch ⟨proxyUrlOf (API_BASE ++ "/messages/" ++ messageId)
           (env.time (n + 1)), deleteOpts token⟩ pout ::
         (match pout with | some _ => [] | none => []))) := by
  refine ⟨?_, ?_, ?_⟩
  · intro resp hnet h403 h429
    have hsf := smartFetch_direct hnet h403 h429
    have hbody := bind_ok (k := fun _ => (pure true : M Bool)) hsf (pure_run true env (n + 1))
    unfold deleteMessage
    have := tryCatch_ok (g := fun _ => (pure false : M Bool)) hbody
    simpa using this
  · intro resp pout hnet hb hp
    have hsf := smartFetch_blocked hnet hb hp
    unfold deleteMessage
    cases pout with
    | some presp =>
      have hbody := bind_ok (k := fun _ => (pure true : M Bool)) hsf (pure_run true env (n + 3))
      have := tryCatch_ok (g := fun _ => (pure false : M Bool)) hbody
      simpa using this
    | none =>
      have hbody := bind_err (k := fun _ => (pure true : M Bool)) hsf
      have := tryCatch_err (g := fun _ => (pure false : M Bool)) hbody
        (pure_run false env (n + 3))
      simpa using this
  · intro pout hnet hp
    have hsf := smartFetch_thrown hnet hp
    unfold deleteMessage
    cases pout with
    | some presp =>
      have hbody := bind_ok (k := fun _ => (pure true : M Bool)) hsf (pure_run true env (n + 3))
      have := tryCatch_ok (g := fun _ => (pure false : M Bool)) hbody
      simpa using this
    | none =>
      have hbody := bind_err (k := fun _ => (pure true : M Bool)) hsf
      have := tryCatch_err (g := fun _ => (pure false : M Bool)) hbody
        (pure_run false env (n + 3))
      simpa using this

/-- Composition when domain resolution itself throws (no domains). -/
lemma createRealAccount_resolve_err {cu cd : Option String} {env : Env} {n : Nat}
    {e : Err} {n₁ : Nat} {trD : List Event}
    (hD : resolveDomain cd env n = (Except.error e, n₁, trD)) :
    createRealAccount cu cd env n = (Except.error e, n₁, trD) := by
  unfold createRealAccount
  have hbody := bind_err (k := fun domain =>
    M.bind (creationLoop (optStrTruthy cu) (cu.getD "") domain
      (if optStrTruthy cu then 1 else 5)) fun ap =>
        finalize (optStrTruthy cu) ap.1 ap.2) hD
  have hfin := tryCatch_err (g := fun e => (M.throw e : M UserSession))
    hbody (throw_run e env n₁)
  simpa using hfin

/-! ## The claims -/
/-- Claim C3: for every invocation of `smartFetch`, a direct response with
status other than 403/429 is returned as-is with no second request; if the
direct attempt throws or returns 403/429, exactly one additional request
is issued, to the proxy endpoint with the original URL percent-encoded and
a cache-busting `_cb` timestamp appended, reusing the same request
options; the proxied response (or its network failure) is returned as-is,
so the call fails only if both attempts fail. -/
theorem c3_resilient_fetch (env : Env) (n : Nat) (url : String) (opts : ReqOptions) :
    (∀ resp, env.net n ⟨url, opts⟩ = some resp → ¬ resp.status = 403 → ¬ resp.status = 429 →
      smartFetch url opts env n =
        (Except.ok resp, n + 1, [Event.fetch ⟨url, opts⟩ (some resp)])) ∧
    (∀ resp pout, env.net n ⟨url, opts⟩ = some resp →
      (resp.status = 403 ∨ resp.status = 429) →
      env.net (n + 2) ⟨proxyUrlOf url (env.time (n + 1)), opts⟩ = pout →
      smartFetch url opts env n =
        (pout.elim (Except.error Err.network) Except.ok, n + 3,
         [Event.fetch ⟨url, opts⟩ (some resp),
          Event.fetch ⟨proxyUrlOf url (env.time (n + 1)), opts⟩ pout])) ∧
    (∀ pout, env.net n ⟨url, opts⟩ = none →
      env.net (n + 2) ⟨proxyUrlOf url (env.time (n + 1)), opts⟩ = pout →
      smartFetch url opts env n =
        (pout.elim (Except.error Err.network) Except.ok, n + 3,
         [Event.fetch ⟨url, opts⟩ none,
          Event.fetch ⟨proxyUrlOf url (env.time (n + 1)), opts⟩ pout])) := by
  refine ⟨fun _ h h403 h429 => smartFetch_direct h h403 h429, ?_, ?_⟩
  · intro resp pout h hb hp
    cases pout with
    | some presp => exact smartFetch_blocked h hb hp
    | none => exact smartFetch_blocked h hb hp
  · intro pout h hp
    cases pout with
    | some presp => exact smartFetch_thrown h hp
    | none => exact smartFetch_thrown h hp

/-- Witness for C3: under `envBlocked` a 403 direct response triggers
exactly one proxied retry, whose 201 response is returned as-is. -/
theorem c3_witness :
    smartFetch "u" defaultOpts envBlocked 0 =
      (Except.ok resp201, 3,
       [Event.fetch ⟨"u", defaultOpts⟩ (some resp403),
        Event.fetch ⟨proxyUrlOf "u" 5, defaultOpts⟩ (some resp201)]) :=
  (c3_resilient_fetch envBlocked 0 "u" defaultOpts).2.1 resp403 (some resp201)
    rfl (Or.inl rfl) rfl

/-- Claim C4: every domain in the sequence returned by
`getAvailableDomains` is active (the strict `isActive` filter is applied
on both strategies), and the function never throws. -/
theorem c4_domains_active_only (env : Env) (n n' : Nat) (r : Except Err (List Json))
    (tr : List Event) (h : getAvailableDomains env n = (r, n', tr)) :
    ∃ ds, r = Except.ok ds ∧ ∀ d ∈ ds, optTruthy (Json.getField d "isActive") = true :=
  (gad_run_inv h).1

/-- Witness for C4 (E2E scenario A): on the mixed catalog
`[a.com active, b.com inactive]` the returned set is `[a.com]`, whose only
entry is active. -/
theorem c4_witness : optTruthy (Json.getField domA "isActive") = true := by
  obtain ⟨ds, hds, hact⟩ := c4_domains_active_only envCatalog 0 2 (Except.ok [domA])
    [Event.fetch ⟨stratAUrl 0, defaultOpts⟩ (some respCatalog)] rfl
  injection hds with hds
  subst hds
  exact hact domA (List.mem_singleton.mpr rfl)

/-- Claim C5: whenever Strategy A (the paginated query) responds ok and
its strict filter yields a non-empty active-domain set (in particular no
catalog element is `null`, on which the filter callback would throw),
exactly that set is returned immediately — the full run performs a single
fetch, so Strategy B is never invoked. -/
theorem c5_strategyA_short_circuit (env : Env) (n : Nat) (resp : Response) (data : Json)
    (elems l : List Json)
    (hnet : env.net (n + 1) ⟨stratAUrl (env.time n), defaultOpts⟩ = some resp)
    (h403 : ¬ resp.status = 403) (h429 : ¬ resp.status = 429) (hok : resp.ok = true)
    (hjson : resp.jsonBody = some data)
    (hmem : Json.getFieldE data "hydra:member" = Except.ok (some (Json.arr elems)))
    (hfil : filterActive elems = Except.ok l)
    (hlen : l.length > 0) :
    getAvailableDomains env n = (Except.ok l, n + 2,
      [Event.fetch ⟨stratAUrl (env.time n), defaultOpts⟩ (some resp)]) :=
  gad_run_stratA hnet h403 h429 hok hjson hmem hfil hlen

/-- Witness for C5: on the mixed catalog, Strategy A returns `[a.com]`
after one single request. -/
theorem c5_witness :
    getAvailableDomains envCatalog 0 = (Except.ok [domA], 2,
      [Event.fetch ⟨stratAUrl 0, defaultOpts⟩ (some respCatalog)]) :=
  c5_strategyA_short_circuit envCatalog 0 respCatalog dataCatalog [domA, domB] [domA]
    rfl (by decide) (by decide) rfl rfl rfl rfl (by decide)

/-- Claim C1: in random mode (`customUsername` absent) at most 5 creation
requests are ever issued; if every creation request is answered 422 the
call fails with the "could not create account after several attempts"
error after exactly 5 attempts; any non-422 non-2xx creation status aborts
immediately with the status-bearing error after a single attempt. -/
theorem c1_random_retry_budget (env : Env) (d : String) (hd : ¬ d = "") :
    (∀ cd r n' tr, createRealAccount none cd env 0 = (r, n', tr) →
      countFetches isAccountsUrl tr ≤ 5) ∧
    (RespondsStatus env accountsUrl 422 →
      ∃ tr, createRealAccount none (some d) env 0 =
        (Except.error (Err.error exhaustedMsg), 115, tr) ∧
        countFetches isAccountsUrl tr = 5) ∧
    (∀ s, RespondsStatus env accountsUrl s → ¬ (200 ≤ s ∧ s < 300) → ¬ s = 422 →
      ¬ s = 403 → ¬ s = 429 →
      ∃ ev, eventMatches isAccountsUrl ev = true ∧
        createRealAccount none (some d) env 0 =
          (Except.error (Err.error (creationFailedMsg s)), 23, [ev])) := by
  have hD : resolveDomain (some d) env 0 = (Except.ok d, 0, []) := resolveDomain_some hd
  refine ⟨?_, ?_, ?_⟩
  · intro cd r n' tr h
    have hb := createRealAccount_count h
    simpa [optStrTruthy] using hb
  · intro h422
    obtain ⟨trL, hL, hcL⟩ := creationLoop_422_random h422 "" d 5 0
    have hL' : creationLoop (optStrTruthy none) (Option.getD none "") d
        (if optStrTruthy none then 1 else 5) env 0 =
        (Except.error (Err.error exhaustedMsg), 0 + 23 * 5, trL) := hL
    have hcomp := createRealAccount_compose_err hD hL'
    refine ⟨trL, ?_, hcL⟩
    simpa using hcomp
  · intro s h hbad h422 h403 h429
    obtain ⟨ev, hev, hstep⟩ := creationStep_badstatus
      (f := creationLoop false "" d 4) (n := 0) h hbad h422 h403 h429 "" d
    have hL' : creationLoop (optStrTruthy none) (Option.getD none "") d
        (if optStrTruthy none then 1 else 5) env 0 =
        (Except.error (Err.error (creationFailedMsg s)), 0 + 23, [ev]) := hstep
    have hcomp := createRealAccount_compose_err hD hL'
    exact ⟨ev, hev, by simpa using hcomp⟩

/-- Witness for C1 (E2E scenario B): under `env422` the random-mode call
exhausts its budget after exactly 5 creation requests. -/
theorem c1_witness :
    ∃ tr, createRealAccount none (some "x.com") env422 0 =
      (Except.error (Err.error exhaustedMsg), 115, tr) ∧
      countFetches isAccountsUrl tr = 5 :=
  (c1_random_retry_budget env422 "x.com" (by decide)).2.1
    (fun _ _ => ⟨resp422, rfl, rfl⟩)

/-- Claim C2: in custom mode exactly one creation request is issued on
every run, and a 422 creation response fails immediately with the
"username unavailable" error, with no second attempt. -/
theorem c2_custom_single_attempt (env : Env) (u d : String) (hu : ¬ u = "") (hd : ¬ d = "") :
    (∀ r n' tr, createRealAccount (some u) (some d) env 0 = (r, n', tr) →
      countFetches isAccountsUrl tr = 1) ∧
    (RespondsStatus env accountsUrl 422 →
      ∃ ev, eventMatches isAccountsUrl ev = true ∧
        createRealAccount (some u) (some d) env 0 =
          (Except.error (Err.error unavailableMsg), 13, [ev])) := by
  have hcu : optStrTruthy (some u) = true := by
    unfold optStrTruthy
    simp [hu]
  have hD : resolveDomain (some d) env 0 = (Except.ok d, 0, []) := resolveDomain_some hd
  constructor
  · intro r n' tr h
    rcases hL : creationLoop true u d 1 env 0 with ⟨rL, nL, trL⟩
    have hL' : creationLoop (optStrTruthy (some u)) (Option.getD (some u) "") d
        (if optStrTruthy (some u) then 1 else 5) env 0 = (rL, nL, trL) := by
      rw [hcu]
      exact hL
    have hcount : countFetches isAccountsUrl trL = 1 := by
      have hle := creationLoop_count 1 hL
      obtain ⟨user, pw, out, rS, nS, tl, hfe⟩ :=
        creationStep_first_event true u d (creationLoop true u d 0) env 0
      have hfe' : creationLoop true u d 1 env 0 =
          (rS, nS, Event.fetch ⟨accountsUrl, creationOpts (user ++ "@" ++ d) pw⟩ out :: tl) :=
        hfe
      rw [hL] at hfe'
      simp only [Prod.mk.injEq] at hfe'
      obtain ⟨-, -, rfl⟩ := hfe'
      have hevm : eventMatches isAccountsUrl
          (Event.fetch ⟨accountsUrl, creationOpts (user ++ "@" ++ d) pw⟩ out) = true := by
        simp [eventMatches, isAccountsUrl_self]
      simp only [countFetches, List.filter_cons_of_pos hevm, List.length_cons] at hle ⊢
      omega
    cases rL with
    | error e =>
      have hcomp := createRealAccount_compose_err hD hL'
      rw [h] at hcomp
      simp only [Prod.mk.injEq] at hcomp
      obtain ⟨-, -, rfl⟩ := hcomp
      simpa [countFetches_append] using hcount
    | ok ap =>
      rcases hF : finalize (optStrTruthy (some u)) ap.1 ap.2 env nL with ⟨R, n₃, trF⟩
      have hcomp := createRealAccount_compose hD hL' hF
      rw [h] at hcomp
      simp only [Prod.mk.injEq] at hcomp
      obtain ⟨-, -, rfl⟩ := hcomp
      obtain ⟨hcF, -⟩ := finalize_inv hF
      simp [countFetches_append, hcount, hcF]
  · intro h422
    obtain ⟨ev, hev, hstep⟩ := creationStep_422_custom
      (f := creationLoop true u d 0) (n := 0) h422 u d
    have hL' : creationLoop (optStrTruthy (some u)) (Option.getD (some u) "") d
        (if optStrTruthy (some u) then 1 else 5) env 0 =
        (Except.error (Err.error unavailableMsg), 0 + 13, [ev]) := by
      rw [hcu]
      exact hstep
    have hcomp := createRealAccount_compose_err hD hL'
    exact ⟨ev, hev, by simpa using hcomp⟩

/-- Witness for C2 (E2E scenario C): under `env422` the custom-mode call
fails with the "unavailable" error after exactly one attempt. -/
theorem c2_witness :
    ∃ ev, eventMatches isAccountsUrl ev = true ∧
      createRealAccount (some "alice") (some "x.com") env422 0 =
        (Except.error (Err.error unavailableMsg), 13, [ev]) :=
  (c2_custom_single_attempt env422 "alice" "x.com" (by decide) (by decide)).2
    (fun _ _ => ⟨resp422, rfl, rfl⟩)

/-- Claim C6: for every session returned by `createRealAccount`,
`isPremium` holds exactly when a (truthy) custom username was supplied,
and `expiresAt` is `null` iff a custom username was supplied, otherwise
the creation timestamp plus 10 minutes. -/
theorem c6_expiry_policy (cu cd : Option String) (env : Env) (n n' : Nat)
    (sess : UserSession) (tr : List Event)
    (h : createRealAccount cu cd env n = (Except.ok sess, n', tr)) :
    sess.isPremium = optStrTruthy cu ∧
    sess.expiresAt = (if optStrTruthy cu then none
      else some (sess.createdAt + 10 * 60 * 1000)) ∧
    (sess.expiresAt = none ↔ optStrTruthy cu = true) := by
  obtain ⟨h1, h2⟩ := createRealAccount_ok_inv h
  refine ⟨h1, h2, ?_⟩
  cases hcu : optStrTruthy cu with
  | false =>
    rw [hcu] at h2
    simp at h2
    simp [h2]
  | true =>
    rw [hcu] at h2
    simp at h2
    simp [h2]

/-- Witness for C6: under `envOK` the random-mode session created at
time 7 expires at 600007 (creation + 10 minutes) and is not premium. -/
theorem c6_witness :
    sessOK.isPremium = optStrTruthy none ∧
    sessOK.expiresAt = (if optStrTruthy none then none
      else some (sessOK.createdAt + 10 * 60 * 1000)) ∧
    (sessOK.expiresAt = none ↔ optStrTruthy none = true) :=
  c6_expiry_policy none (some "x.com") envOK 0 26 sessOK trOK rfl

/-- All three discovery rounds empty: the call fails with the
"no domains" error. -/
lemma createRealAccount_no_domains {cu : Option String} {env : Env} {n₃ : Nat}
    {trL : List Event}
    (hloop : domainRetryLoop 3 env 0 = (Except.ok [], n₃, trL)) :
    createRealAccount cu none env 0 = (Except.error (Err.error noDomainsMsg), n₃, trL) :=
  createRealAccount_resolve_err (resolveDomainDiscover_of_loop_empty hloop)

/-- A non-empty discovery result: the creation request that follows uses a
domain picked from exactly that result. -/
lemma createRealAccount_uses_domain {cu : Option String} {env : Env} {nL : Nat}
    {ds : List Json} {trL : List Event}
    (hloop : domainRetryLoop 3 env 0 = (Except.ok ds, nL, trL)) (hne : ¬ ds.length = 0) :
    ∃ user pw out r n' tl, createRealAccount cu none env 0 = (r, n',
      trL ++ Event.fetch ⟨accountsUrl,
        creationOpts (user ++ "@" ++ pickDomain ds (env.rand nL % ds.length)) pw⟩ out :: tl) := by
  have hD : resolveDomain none env 0 =
      (Except.ok (pickDomain ds (env.rand nL % ds.length)), nL + 1, trL) :=
    resolveDomainDiscover_of_loop hloop hne
  have hex : ∃ fr, (if optStrTruthy cu then 1 else 5) = fr + 1 := by
    cases optStrTruthy cu
    · exact ⟨4, rfl⟩
    · exact ⟨0, rfl⟩
  obtain ⟨fr, hfr⟩ := hex
  obtain ⟨user, pw, out, rL, nL', tl, hstep⟩ := creationStep_first_event (optStrTruthy cu)
    (cu.getD "") (pickDomain ds (env.rand nL % ds.length))
    (creationLoop (optStrTruthy cu) (cu.getD "") (pickDomain ds (env.rand nL % ds.length)) fr)
    env (nL + 1)
  have hloopEq : creationLoop (optStrTruthy cu) (cu.getD "")
      (pickDomain ds (env.rand nL % ds.length)) (if optStrTruthy cu then 1 else 5) env (nL + 1)
      = (rL, nL', Event.fetch ⟨accountsUrl, creationOpts
        (user ++ "@" ++ pickDomain ds (env.rand nL % ds.length)) pw⟩ out :: tl) := by
    rw [hfr]
    exact hstep
  cases rL with
  | error e =>
    have hcomp := createRealAccount_compose_err hD hloopEq
    exact ⟨user, pw, out, _, _, tl, hcomp⟩
  | ok ap =>
    rcases hF : finalize (optStrTruthy cu) ap.1 ap.2 env nL' with ⟨R, n₃, trF⟩
    have hcomp := createRealAccount_compose hD hloopEq hF
    refine ⟨user, pw, out, R, n₃, tl ++ trF, ?_⟩
    simpa using hcomp

/-- Claim C7: with no `customDomain`, Domain Discovery is run at most 3
times — after each empty result a 500ms sleep is taken; a non-empty
result at any round stops the loop there, and the subsequent creation
request carries a domain picked from exactly that round's result; three
empty rounds fail the call with the "no domains available" error. -/
theorem c7_domain_retry (env : Env) (cu : Option String) :
    ∃ ds₁ n₁ tr₁, getAvailableDomains env 0 = (Except.ok ds₁, n₁, tr₁) ∧
    (¬ ds₁.length = 0 →
      ∃ user pw out r n' tl, createRealAccount cu none env 0 = (r, n',
        tr₁ ++ Event.fetch ⟨accountsUrl, creationOpts
          (user ++ "@" ++ pickDomain ds₁ (env.rand n₁ % ds₁.length)) pw⟩ out :: tl)) ∧
    (ds₁ = [] →
      ∃ ds₂ n₂ tr₂, getAvailableDomains env (n₁ + 1) = (Except.ok ds₂, n₂, tr₂) ∧
      (¬ ds₂.length = 0 →
        ∃ user pw out r n' tl, createRealAccount cu none env 0 = (r, n',
          (tr₁ ++ Event.sleep 500 :: tr₂) ++ Event.fetch ⟨accountsUrl, creationOpts
            (user ++ "@" ++ pickDomain ds₂ (env.rand n₂ % ds₂.length)) pw⟩ out :: tl)) ∧
      (ds₂ = [] →
        ∃ ds₃ n₃ tr₃, getAvailableDomains env (n₂ + 1) = (Except.ok ds₃, n₃, tr₃) ∧
        ((¬ ds₃.length = 0 →
          ∃ user pw out r n' tl, createRealAccount cu none env 0 = (r, n',
            (tr₁ ++ Event.sleep 500 :: (tr₂ ++ Event.sleep 500 :: tr₃)) ++
              Event.fetch ⟨accountsUrl, creationOpts
                (user ++ "@" ++ pickDomain ds₃ (env.rand n₃ % ds₃.length)) pw⟩ out :: tl)) ∧
        (ds₃ = [] →
          createRealAccount cu none env 0 = (Except.error (Err.error noDomainsMsg), n₃ + 1,
            tr₁ ++ Event.sleep 500 :: (tr₂ ++ Event.sleep 500 ::
              (tr₃ ++ [Event.sleep 500]))))))) := by
  rcases h1 : getAvailableDomains env 0 with ⟨r₁, n₁, tr₁⟩
  obtain ⟨⟨ds₁, rfl, -⟩, -⟩ := gad_run_inv h1
  refine ⟨ds₁, n₁, tr₁, rfl, ?_, ?_⟩
  · intro hne
    have hloop : domainRetryLoop 3 env 0 = (Except.ok ds₁, n₁, tr₁) :=
      domainRetryLoop_succ_nonempty h1 (Nat.pos_of_ne_zero hne)
    exact createRealAccount_uses_domain hloop hne
  · rintro rfl
    rcases h2 : getAvailableDomains env (n₁ + 1) with ⟨r₂, n₂, tr₂⟩
    obtain ⟨⟨ds₂, rfl, -⟩, -⟩ := gad_run_inv h2
    refine ⟨ds₂, n₂, tr₂, rfl, ?_, ?_⟩
    · intro hne
      have hloop2 : domainRetryLoop 2 env (n₁ + 1) = (Except.ok ds₂, n₂, tr₂) :=
        domainRetryLoop_succ_nonempty h2 (Nat.pos_of_ne_zero hne)
      have hloop := domainRetryLoop_succ_empty h1 hloop2
      exact createRealAccount_uses_domain hloop hne
    · rintro rfl
      rcases h3 : getAvailableDomains env (n₂ + 1) with ⟨r₃, n₃, tr₃⟩
      obtain ⟨⟨ds₃, rfl, -⟩, -⟩ := gad_run_inv h3
      refine ⟨ds₃, n₃, tr₃, rfl, ?_, ?_⟩
      · intro hne
        have hloop3 : domainRetryLoop 1 env (n₂ + 1) = (Except.ok ds₃, n₃, tr₃) :=
          domainRetryLoop_succ_nonempty h3 (Nat.pos_of_ne_zero hne)
        have hloop2 := domainRetryLoop_succ_empty h2 hloop3
        have hloop := domainRetryLoop_succ_empty h1 hloop2
        exact createRealAccount_uses_domain hloop hne
      · rintro rfl
        have hloop0 : domainRetryLoop 0 env (n₃ + 1) = (Except.ok [], n₃ + 1, []) := by
          show (pure [] : M (List Json)) env (n₃ + 1) = _
          exact pure_run [] env (n₃ + 1)
        have hloop1 := domainRetryLoop_succ_empty h3 hloop0
        have hloop2 := domainRetryLoop_succ_empty h2 hloop1
        have hloop := domainRetryLoop_succ_empty h1 hloop2
        exact createRealAccount_no_domains hloop

/-- Witness for C7: under `env404` every discovery round is empty, so the
call fails with the "no domains" error after three rounds, each followed
by a 500ms sleep. -/
theorem c7_witness :
    createRealAccount none none env404 0 =
      (Except.error (Err.error noDomainsMsg), 15,
       [ev404A, ev404B, Event.sleep 500, ev404A, ev404B, Event.sleep 500,
        ev404A, ev404B, Event.sleep 500]) := by
  obtain ⟨ds₁, n₁, tr₁, h1, -, hr1⟩ := c7_domain_retry env404 none
  have e1 : getAvailableDomains env404 0 = (Except.ok [], 4, [ev404A, ev404B]) := rfl
  rw [e1] at h1
  simp only [Prod.mk.injEq, Except.ok.injEq] at h1
  obtain ⟨rfl, rfl, rfl⟩ := h1
  obtain ⟨ds₂, n₂, tr₂, h2, -, hr2⟩ := hr1 rfl
  have e2 : getAvailableDomains env404 (4 + 1) = (Except.ok [], 9, [ev404A, ev404B]) := rfl
  rw [e2] at h2
  simp only [Prod.mk.injEq, Except.ok.injEq] at h2
  obtain ⟨rfl, rfl, rfl⟩ := h2
  obtain ⟨ds₃, n₃, tr₃, h3, -, hr3⟩ := hr2 rfl
  have e3 : getAvailableDomains env404 (9 + 1) = (Except.ok [], 14, [ev404A, ev404B]) := rfl
  rw [e3] at h3
  simp only [Prod.mk.injEq, Except.ok.injEq] at h3
  obtain ⟨rfl, rfl, rfl⟩ := h3
  have hfin := hr3 rfl
  exact hfin

/-- Claim C8: `fetchMessageDetails` never throws (it yields `null` on any
failure, including a `null` parsed body, whose `data.html` read throws a
`TypeError` into the catch), and on a non-null parsed response the body is
resolved by preferring a non-empty `html` array (joined into one string),
then a non-empty `html` string, then a truthy `text` field, then the
"No content" sentinel. -/
theorem c8_detail_body_resolution (env : Env) (n : Nat) (token messageId : String) :
    (∃ v n' tr, fetchMessageDetails token messageId env n = (Except.ok v, n', tr)) ∧
    (∀ resp, env.net n ⟨API_BASE ++ "/messages/" ++ messageId, msgOpts token⟩ = some resp →
      ¬ resp.status = 403 → ¬ resp.status = 429 →
      (∀ data, resp.jsonBody = some data → ¬ data = Json.null →
        (fetchMessageDetails token messageId env n =
          (Except.ok (some { body := resolveBody data, hasFullDetails := true }), n + 1,
           [Event.fetch ⟨API_BASE ++ "/messages/" ++ messageId, msgOpts token⟩ (some resp)]) ∧
         (∀ elems, Json.getField data "html" = some (Json.arr elems) → elems.length > 0 →
           resolveBody data = String.join (elems.map jsStrElem)) ∧
         (∀ s, Json.getField data "html" = some (Json.str s) → s.length > 0 →
           resolveBody data = s) ∧
         (∀ t, Json.getField data "html" = none → Json.getField data "text" = some t →
           t.truthy = true → resolveBody data = t.jsStr) ∧
         (Json.getField data "html" = none → Json.getField data "text" = none →
           resolveBody data = "No content"))) ∧
      (resp.jsonBody = some Json.null →
        fetchMessageDetails token messageId env n = (Except.ok none, n + 1,
          [Event.fetch ⟨API_BASE ++ "/messages/" ++ messageId, msgOpts token⟩ (some resp)])) ∧
      (resp.jsonBody = none →
        fetchMessageDetails token messageId env n = (Except.ok none, n + 1,
          [Event.fetch ⟨API_BASE ++ "/messages/" ++ messageId, msgOpts token⟩ (some resp)]))) := by
  constructor
  · unfold fetchMessageDetails
    exact tryCatch_pure_handler_ok _ none env n
  · intro resp hnet h403 h429
    obtain ⟨hsome, hnull, hnone⟩ := fetchMessageDetails_run hnet h403 h429
    refine ⟨?_, hnull, hnone⟩
    intro data hdata hnn
    exact ⟨hsome data hdata hnn,
      fun _ hm hl => resolveBody_html_arr hm hl,
      fun _ hm hl => resolveBody_html_str hm hl,
      fun _ hh ht htr => resolveBody_text hh ht htr,
      fun hh ht => resolveBody_sentinel hh ht⟩

/-- Witness for C8: the two HTML fragments are joined into one body. -/
theorem c8_witness :
    resolveBody dataMsg = "<p>hi</p>" ∧
    fetchMessageDetails "t" "m1" envMsg 0 =
      (Except.ok (some { body := resolveBody dataMsg, hasFullDetails := true }), 0 + 1,
       [Event.fetch ⟨API_BASE ++ "/messages/" ++ "m1", msgOpts "t"⟩ (some respMsg)]) := by
  have h1 : resolveBody dataMsg =
      String.join ([Json.str "<p>", Json.str "hi</p>"].map jsStrElem) :=
    resolveBody_html_arr rfl (by decide)
  have h2 : String.join ([Json.str "<p>", Json.str "hi</p>"].map jsStrElem) = "<p>hi</p>" := by
    simp only [List.map, jsStrElem, Json.jsStr]
    decide
  refine ⟨h1.trans h2, ?_⟩
  exact (((c8_detail_body_resolution envMsg 0 "t" "m1").2 respMsg rfl (by decide)
    (by decide)).1 dataMsg rfl (by intro h; exact Json.noConfusion h)).1

/-- Claim C9 (amended): `deleteMessage` never throws; it returns `true`
exactly when the underlying resilient fetch delivers a response — a direct
non-403/429 response, or any proxied response after the direct attempt
rejected or answered 403/429 — regardless of that status, and it
returns `false` exactly when the fetch ultimately rejects, i.e. when the
proxied fallback itself rejects; since the status is never inspected,
`true` does not imply the deletion succeeded. -/
theorem c9_delete_best_effort (env : Env) (n : Nat) (token messageId : String) :
    (∃ b n' tr, deleteMessage token messageId env n = (Except.ok b, n', tr)) ∧
    (∀ resp, env.net n ⟨API_BASE ++ "/messages/" ++ messageId, deleteOpts token⟩ = some resp →
      ¬ resp.status = 403 → ¬ resp.status = 429 →
      deleteMessage token messageId env n = (Except.ok true, n + 1,
        [Event.fetch ⟨API_BASE ++ "/messages/" ++ messageId, deleteOpts token⟩ (some resp)])) ∧
    (∀ resp pout, env.net n ⟨API_BASE ++ "/messages/" ++ messageId, deleteOpts token⟩ =
        some resp →
      (resp.status = 403 ∨ resp.status = 429) →
      env.net (n + 2) ⟨proxyUrlOf (API_BASE ++ "/messages/" ++ messageId)
        (env.time (n + 1)), deleteOpts token⟩ = pout →
      deleteMessage token messageId env n = (Except.ok pout.isSome, n + 3,
        [Event.fetch ⟨API_BASE ++ "/messages/" ++ messageId, deleteOpts token⟩ (some resp),
         Event.fetch ⟨proxyUrlOf (API_BASE ++ "/messages/" ++ messageId)
           (env.time (n + 1)), deleteOpts token⟩ pout])) ∧
    (∀ pout, env.net n ⟨API_BASE ++ "/messages/" ++ messageId, deleteOpts token⟩ = none →
      env.net (n + 2) ⟨proxyUrlOf (API_BASE ++ "/messages/" ++ messageId)
        (env.time (n + 1)), deleteOpts token⟩ = pout →
      deleteMessage token messageId env n = (Except.ok pout.isSome, n + 3,
        [Event.fetch ⟨API_BASE ++ "/messages/" ++ messageId, deleteOpts token⟩ none,
         Event.fetch ⟨proxyUrlOf (API_BASE ++ "/messages/" ++ messageId)
           (env.time (n + 1)), deleteOpts token⟩ pout])) := by
  obtain ⟨hdirect, hblocked, hfallback⟩ := deleteMessage_run token messageId env n
  refine ⟨?_, hdirect, ?_, ?_⟩
  · unfold deleteMessage
    exact tryCatch_pure_handler_ok _ false env n
  · intro resp pout hnet hb hp
    cases pout with
    | some presp => simpa using hblocked resp (some presp) hnet hb hp
    | none => simpa using hblocked resp none hnet hb hp
  · intro pout hnet hp
    cases pout with
    | some presp => simpa using hfallback (some presp) hnet hp
    | none => simpa using hfallback none hnet hp

/-- Counterexample for C9 as stated: under `env404` the DELETE request is
answered with a 404 — the deletion did not succeed (`resp404.ok = false`)
— yet `deleteMessage` returns `true`, so "true only when the deletion
succeeded" is false on the code. -/
theorem c9_counterexample :
    deleteMessage "tok" "m1" env404 0 = (Except.ok true, 1,
      [Event.fetch ⟨API_BASE ++ "/messages/" ++ "m1", deleteOpts "tok"⟩ (some resp404)]) ∧
    resp404.ok = false :=
  ⟨rfl, rfl⟩

/-- Witness for C9 (amended): when the direct attempt rejects and the
proxy also rejects the result is `false`; likewise when the direct attempt
is answered 403 (a response was received!) and the proxy then rejects. -/
theorem c9_witness :
    deleteMessage "tok" "m1" envDown 0 = (Except.ok false, 3,
      [Event.fetch ⟨API_BASE ++ "/messages/" ++ "m1", deleteOpts "tok"⟩ none,
       Event.fetch ⟨proxyUrlOf (API_BASE ++ "/messages/" ++ "m1") 0,
         deleteOpts "tok"⟩ none]) ∧
    deleteMessage "tok" "m1" envBlockedDown 0 = (Except.ok false, 3,
      [Event.fetch ⟨API_BASE ++ "/messages/" ++ "m1", deleteOpts "tok"⟩ (some resp403),
       Event.fetch ⟨proxyUrlOf (API_BASE ++ "/messages/" ++ "m1") 0,
         deleteOpts "tok"⟩ none]) :=
  ⟨(c9_delete_best_effort envDown 0 "tok" "m1").2.2.2 none rfl rfl,
   (c9_delete_best_effort envBlockedDown 0 "tok" "m1").2.2.1 resp403 none rfl
     (Or.inl rfl) rfl⟩

/-- Claim C10 (amended, implicit): the status of the `/me` response is
never checked — whenever account creation and the token exchange succeed
with a token body parsing to a non-null value, the call returns a session
for any `/me` status (403/429 aside, which only reroute the transport)
whose body parses to a non-null JSON value, taking `accountId` from that
body (possibly `undefined`); the `/me` step fails the call either when the
body fails to parse as JSON, or when it parses to `null` and the read
`meData.id` throws a `TypeError` — in both cases with a propagated generic
error rather than a distinct error kind. -/
theorem c10_me_status_unchecked (env : Env) (cu : Option String) (d : String) (hd : ¬ d = "")
    (rAcc rTok rMe : Response) (tokenData : Json)
    (hAcc : RespondsWith env accountsUrl rAcc) (hAccOk : rAcc.ok = true)
    (hTok : RespondsWith env tokenUrl rTok) (hTokOk : rTok.ok = true)
    (hTokJson : rTok.jsonBody = some tokenData) (hTokNN : ¬ tokenData = Json.null)
    (hMe : RespondsWith env meUrl rMe)
    (hMe403 : ¬ rMe.status = 403) (hMe429 : ¬ rMe.status = 429) :
    (∀ meData, rMe.jsonBody = some meData → ¬ meData = Json.null →
      ∃ sess n' tr, createRealAccount cu (some d) env 0 = (Except.ok sess, n', tr) ∧
        sess.accountId = Json.getField meData "id") ∧
    (rMe.jsonBody = some Json.null →
      ∃ n' tr, createRealAccount cu (some d) env 0 = (Except.error Err.typeError, n', tr)) ∧
    (rMe.jsonBody = none →
      ∃ n' tr, createRealAccount cu (some d) env 0 = (Except.error Err.jsonParse, n', tr)) := by
  have hD : resolveDomain (some d) env 0 = (Except.ok d, 0, []) := resolveDomain_some hd
  have hex : ∃ fr, (if optStrTruthy cu then 1 else 5) = fr + 1 := by
    cases optStrTruthy cu
    · exact ⟨4, rfl⟩
    · exact ⟨0, rfl⟩
  obtain ⟨fr, hfr⟩ := hex
  obtain ⟨user, pw, k, -, hstep⟩ := creationStep_ok (optStrTruthy cu)
    (f := creationLoop (optStrTruthy cu) (cu.getD "") d fr) (n := 0)
    hAcc hAccOk (cu.getD "") d
  have hloopEq : creationLoop (optStrTruthy cu) (cu.getD "") d
      (if optStrTruthy cu then 1 else 5) env 0 =
      (Except.ok (user ++ "@" ++ d, pw), 0 + k + 13,
       [Event.fetch ⟨accountsUrl, creationOpts (user ++ "@" ++ d) pw⟩ (some rAcc)]) := by
    rw [hfr]
    exact hstep
  obtain ⟨hfinsome, hfinnull, hfinnone⟩ := finalize_run (optStrTruthy cu)
    (user ++ "@" ++ d) pw (0 + k + 13)
    hTok hTokOk hTokJson hTokNN hMe hMe403 hMe429
  refine ⟨?_, ?_, ?_⟩
  · intro meData hme hmeNN
    have hF := hfinsome meData hme hmeNN
    have hcomp := createRealAccount_compose hD hloopEq hF
    exact ⟨_, _, _, hcomp, rfl⟩
  · intro hme
    have hF := hfinnull hme
    have hcomp := createRealAccount_compose hD hloopEq hF
    exact ⟨_, _, hcomp⟩
  · intro hme
    have hF := hfinnone hme
    have hcomp := createRealAccount_compose hD hloopEq hF
    exact ⟨_, _, hcomp⟩

/-- Counterexample for C10 as stated: under `envMeNull` the `/me` answer
is a 500 whose body parses as JSON (the value `null`), account creation
and the token exchange succeed — yet the call fails (the `TypeError` from
`meData.id`), so "only a body that fails to parse as JSON makes the call
fail" is false on the code. -/
theorem c10_counterexample :
    respMeNull.jsonBody = some Json.null ∧
    createRealAccount none (some "x.com") envMeNull 0 =
      (Except.error Err.typeError, 26, trMeNull) :=
  ⟨rfl, rfl⟩

/-- Witness for C10 (amended): with `/me` answering 500 with a JSON-object
body the call still returns a session whose `accountId` is read from that
body; with a `/me` body parsing to `null` it fails with the propagated
`TypeError`; with an unparseable `/me` body it fails with the generic
parse error. -/
theorem c10_witness :
    (∃ sess n' tr, createRealAccount none (some "x.com") envMe500 0 =
      (Except.ok sess, n', tr) ∧ sess.accountId = Json.getField meData1 "id") ∧
    (∃ n' tr, createRealAccount none (some "x.com") envMeNull 0 =
      (Except.error Err.typeError, n', tr)) ∧
    (∃ n' tr, createRealAccount none (some "x.com") envMeBad 0 =
      (Except.error Err.jsonParse, n', tr)) :=
  ⟨(c10_me_status_unchecked envMe500 none "x.com" (by decide) resp201 respTok respMe500
      tokData (fun _ _ => rfl) rfl (fun _ _ => rfl) rfl rfl (by intro h; exact Json.noConfusion h)
      (fun _ _ => rfl) (by decide) (by decide)).1 meData1 rfl (by intro h; exact Json.noConfusion h),
   (c10_me_status_unchecked envMeNull none "x.com" (by decide) resp201 respTok respMeNull
      tokData (fun _ _ => rfl) rfl (fun _ _ => rfl) rfl rfl (by intro h; exact Json.noConfusion h)
      (fun _ _ => rfl) (by decide) (by decide)).2.1 rfl,
   (c10_me_status_unchecked envMeBad none "x.com" (by decide) resp201 respTok respMeBadBody
      tokData (fun _ _ => rfl) rfl (fun _ _ => rfl) rfl rfl (by intro h; exact Json.noConfusion h)
      (fun _ _ => rfl) (by decide) (by decide)).2.2 rfl⟩
